import Mathlib

/-! # Text RPG of `chapter08/game.cpp`: a shallow embedding

The program is embedded twice.  The first embedding computes with the
mathematical integers (`Int`): it is the program as long as no `int` operation
overflows.  The second embedding (section "The 32-bit model", names ending in
`32`) reduces every `int` operation modulo `2^32`, and is the one used wherever
a statement ranges over every `int` argument or over runs of any length.
Console output is not modelled.  The two sources of input are explicit:

* `cin` is a finite list of integers, consumed front to back by `cin >> x`.
  When the list is empty the read fails, the variable is set to `0` and every
  later read fails too, so the battle loop spins on the invalid-choice branch
  for ever: that run has no result (`noReturn`).
* every `dis(gen)` of a `uniform_int_distribution` is one integer taken from a
  stream `rng : Nat → Int`, read at a position that advances by one per draw
  (in the 32-bit model the stream holds the raw outputs of the generator and
  the distribution maps each one into its range).
-/

namespace SimpleRpg

/-! ## Exceptions -/

/-- Class `InvalidActionException`, carrying the text of the action. -/
structure InvalidActionException where
  action : String
  deriving DecidableEq, Repr

/-! ## Item -/

/-- Class `Item`: a name and the two effects of using it. -/
structure Item where
  name : String
  healAmount : Int
  attackBonus : Int
  deriving DecidableEq, Repr

/-! ## Character -/

/-- Class `Character`: the protected fields shared by players and monsters. -/
structure Character where
  name : String
  health : Int
  maxHealth : Int
  attack : Int
  defense : Int
  deriving DecidableEq, Repr

/-- The constructor `Character(n, hp, att, def)`: `health` and `maxHealth` both start at `hp`. -/
def Character.new (n : String) (hp att dfn : Int) : Character :=
  { name := n, health := hp, maxHealth := hp, attack := att, defense := dfn }

/-- `Character::takeDamage`: subtract the actual damage, then reset a health
that is `<= 0` to `0`. -/
def Character.takeDamage (c : Character) (damage : Int) : Character :=
  let actualDamage := max 1 (damage - c.defense)
  let c1 := { c with health := c.health - actualDamage }
  if c1.health ≤ 0 then { c1 with health := 0 } else c1

/-- `Character::heal`: `health = min(maxHealth, health + amount)`. -/
def Character.heal (c : Character) (amount : Int) : Character :=
  { c with health := min c.maxHealth (c.health + amount) }

/-- `Character::isAlive`: `health > 0`. -/
def Character.isAlive (c : Character) : Bool :=
  decide (c.health > 0)

/-! ## Player -/

/-- Class `Player`: a `Character` with experience, level, inventory and gold. -/
structure Player extends Character where
  experience : Int
  level : Int
  inventory : List Item
  gold : Int
  deriving DecidableEq, Repr

/-- The constructor `Player(n)`: `Character(n, 100, 20, 5)`, experience 0,
level 1, gold 50, and the two starting items. -/
def Player.new (n : String) : Player :=
  { toCharacter := Character.new n 100 20 5
    experience := 0
    level := 1
    inventory := [{ name := "체력 포션", healAmount := 30, attackBonus := 0 },
                  { name := "힘의 물약", healAmount := 0, attackBonus := 10 }]
    gold := 50 }

/-- The inherited `takeDamage` on a player. -/
def Player.takeDamage (p : Player) (damage : Int) : Player :=
  { p with toCharacter := p.toCharacter.takeDamage damage }

/-- The inherited `heal` on a player. -/
def Player.heal (p : Player) (amount : Int) : Player :=
  { p with toCharacter := p.toCharacter.heal amount }

/-- The inherited `isAlive` on a player. -/
def Player.isAlive (p : Player) : Bool :=
  p.toCharacter.isAlive

/-- `Player::calculateDamage`: `max(1, dis(gen))`, where `draw` is the value of
`dis(gen)` for `dis(attack - 5, attack + 5)`. -/
def Player.calculateDamage (_p : Player) (draw : Int) : Int :=
  max 1 draw

/-- `Player::levelUp`. -/
def Player.levelUp (p : Player) : Player :=
  let p1 := { p with level := p.level + 1 }
  let hpIncrease : Int := 20
  let attIncrease : Int := 5
  let defIncrease : Int := 2
  let p2 := { p1 with maxHealth := p1.maxHealth + hpIncrease }
  let p3 := { p2 with health := p2.maxHealth }
  let p4 := { p3 with attack := p3.attack + attIncrease }
  { p4 with defense := p4.defense + defIncrease }

/-- `Player::gainExperience`: add the experience, then one level-up check. -/
def Player.gainExperience (p : Player) (exp : Int) : Player :=
  let p1 := { p with experience := p.experience + exp }
  if p1.experience ≥ p1.level * 100 then p1.levelUp else p1

/-- `Player::gainGold`. -/
def Player.gainGold (p : Player) (amount : Int) : Player :=
  { p with gold := p.gold + amount }

/-- `Player::getInventorySize`. -/
def Player.getInventorySize (p : Player) : Int :=
  (p.inventory.length : Int)

/-- `Player::useItem`.  The result pairs what the call does (returns, or throws
`InvalidActionException`) with the player as the call leaves it. -/
def Player.useItem (p : Player) (index : Int) : Except InvalidActionException Unit × Player :=
  if h : index < 1 ∨ index > (p.inventory.length : Int) then
    (.error { action := "잘못된 아이템 번호" }, p)
  else
    let item := p.inventory.get ⟨(index - 1).toNat, by omega⟩
    let p1 := if item.healAmount > 0 then p.heal item.healAmount else p
    let p2 := if item.attackBonus > 0 then { p1 with attack := p1.attack + item.attackBonus } else p1
    (.ok (), { p2 with inventory := p2.inventory.eraseIdx (index - 1).toNat })

/-- The players a program can hold: the fields are private, so a player is made
by the constructor and changed only by the public member functions. -/
inductive Player.Reachable : Player → Prop where
  | new (n : String) : Player.Reachable (Player.new n)
  | takeDamage (p : Player) (d : Int) : Player.Reachable p → Player.Reachable (p.takeDamage d)
  | heal (p : Player) (a : Int) : Player.Reachable p → Player.Reachable (p.heal a)
  | gainExperience (p : Player) (e : Int) :
      Player.Reachable p → Player.Reachable (p.gainExperience e)
  | gainGold (p : Player) (g : Int) : Player.Reachable p → Player.Reachable (p.gainGold g)
  | useItem (p : Player) (i : Int) : Player.Reachable p → Player.Reachable (p.useItem i).2

/-! ## Monster -/

/-- Class `Monster`: a `Character` with the two rewards. -/
structure Monster extends Character where
  expReward : Int
  goldReward : Int
  deriving DecidableEq, Repr

/-- The constructor `Monster(n, hp, att, def, exp, gold)`. -/
def Monster.new (n : String) (hp att dfn exp gold : Int) : Monster :=
  { toCharacter := Character.new n hp att dfn, expReward := exp, goldReward := gold }

/-- The inherited `takeDamage` on a monster. -/
def Monster.takeDamage (m : Monster) (damage : Int) : Monster :=
  { m with toCharacter := m.toCharacter.takeDamage damage }

/-- The inherited `isAlive` on a monster. -/
def Monster.isAlive (m : Monster) : Bool :=
  m.toCharacter.isAlive

/-- `Monster::calculateDamage`: `max(1, dis(gen))`, where `draw` is the value of
`dis(gen)` for `dis(attack - 3, attack + 3)`. -/
def Monster.calculateDamage (_m : Monster) (draw : Int) : Int :=
  max 1 draw

/-! ## MonsterFactory -/

/-- `MonsterFactory::createRandomMonster`, with `monsterType` the value of
`dis(gen)` for `dis(1, 4)`. -/
def MonsterFactory.createRandomMonster (playerLevel : Int) (monsterType : Int) : Monster :=
  let levelMultiplier := max 1 playerLevel
  if monsterType = 1 then
    Monster.new "슬라임" (30 + levelMultiplier * 10) (8 + levelMultiplier * 2)
      (1 + levelMultiplier) (20 + levelMultiplier * 5) (10 + levelMultiplier * 3)
  else if monsterType = 2 then
    Monster.new "고블린" (50 + levelMultiplier * 15) (12 + levelMultiplier * 3)
      (3 + levelMultiplier) (35 + levelMultiplier * 8) (20 + levelMultiplier * 5)
  else if monsterType = 3 then
    Monster.new "오크" (80 + levelMultiplier * 20) (18 + levelMultiplier * 4)
      (5 + levelMultiplier * 2) (50 + levelMultiplier * 10) (35 + levelMultiplier * 7)
  else if monsterType = 4 then
    Monster.new "드래곤" (150 + levelMultiplier * 30) (25 + levelMultiplier * 5)
      (8 + levelMultiplier * 3) (100 + levelMultiplier * 15) (75 + levelMultiplier * 10)
  else
    Monster.new "알 수 없는 몬스터" 40 10 2 25 15

/-! ## BattleSystem -/

/-- How the `while` loop of `BattleSystem::battle` is left, with both
combatants, the unread input and the position in the random stream at that
point: `done` when the loop condition is false or at the `break`, `fled` at the
`return false`, `noReturn` when the input has run out. -/
inductive LoopExit where
  | done (p : Player) (m : Monster) (cin : List Int) (pos : Nat)
  | fled (p : Player) (m : Monster) (cin : List Int) (pos : Nat)
  | noReturn
  deriving DecidableEq, Repr

/-- The monster's turn, lines 329-332: one draw, then `player.takeDamage`. -/
def BattleSystem.monsterTurn (rng : Nat → Int) (p : Player) (m : Monster) (pos : Nat) : Player :=
  let damage := m.calculateDamage (rng pos)
  p.takeDamage damage

/-- The `while (player.isAlive() && monster.isAlive())` loop of
`BattleSystem::battle`.  Each iteration reads the choice, runs the `switch`
inside the `try`, and a `continue` (in `case 2` with an empty inventory, or in
the `catch` handler) goes back to the loop condition.  The code after the
`switch` (the `break` on a dead monster and the monster's turn) follows `case 1`
and a returning `useItem`. -/
def BattleSystem.battleLoop (rng : Nat → Int) (p : Player) (m : Monster) (pos : Nat)
    (cin : List Int) : LoopExit :=
  if p.isAlive && m.isAlive then
    match cin with
    | [] => .noReturn
    | choice :: cin1 =>
      if choice = 1 then
        let damage := p.calculateDamage (rng pos)
        let m1 := m.takeDamage damage
        if !m1.isAlive then .done p m1 cin1 (pos + 1)
        else battleLoop rng (monsterTurn rng p m1 (pos + 1)) m1 (pos + 2) cin1
      else if choice = 2 then
        if p.getInventorySize = 0 then battleLoop rng p m pos cin1
        else
          match cin1 with
          | [] => .noReturn
          | itemIndex :: cin2 =>
            match p.useItem itemIndex with
            | (.error _, p1) => battleLoop rng p1 m pos cin2
            | (.ok (), p1) =>
              if !m.isAlive then .done p1 m cin2 pos
              else battleLoop rng (monsterTurn rng p1 m pos) m (pos + 1) cin2
      else if choice = 3 then .fled p m cin1 pos
      else battleLoop rng p m pos cin1
  else .done p m cin pos

/-- What a call of `BattleSystem::battle` does: it returns a `bool`, throws
`GameOverException`, or never returns. -/
inductive BattleResult where
  | returned (result : Bool) (p : Player) (m : Monster) (cin : List Int) (pos : Nat)
  | gameOver (p : Player) (m : Monster) (cin : List Int) (pos : Nat)
  | noReturn
  deriving DecidableEq, Repr

/-- The code of `BattleSystem::battle` after the loop, lines 335-343, and the
`return false` of `case 3`. -/
def BattleSystem.battleResult : LoopExit → BattleResult
  | .fled p m cin pos => .returned false p m cin pos
  | .done p m cin pos =>
    if p.isAlive then
      .returned true ((p.gainExperience m.expReward).gainGold m.goldReward) m cin pos
    else .gameOver p m cin pos
  | .noReturn => .noReturn

/-- `BattleSystem::battle`. -/
def BattleSystem.battle (rng : Nat → Int) (p : Player) (m : Monster) (pos : Nat)
    (cin : List Int) : BattleResult :=
  battleResult (battleLoop rng p m pos cin)

/-- A property of the two combatants holds at a loop exit (and trivially of a
run that never leaves the loop). -/
def LoopExit.Sat (Q : Player → Monster → Prop) : LoopExit → Prop
  | .done p m _ _ => Q p m
  | .fled p m _ _ => Q p m
  | .noReturn => True

/-! ## Health range -/

/-- The range property of section 3 of the specification: `0 <= health <= maxHealth`. -/
def Character.healthInRange (c : Character) : Prop :=
  0 ≤ c.health ∧ c.health ≤ c.maxHealth

/-! ## The ranges of the damage draws -/

/-- The bounds `(attack - 5, attack + 5)` of the `uniform_int_distribution` in
`Player::calculateDamage`. -/
def Player.damageDistribution (p : Player) : Int × Int :=
  (p.attack - 5, p.attack + 5)

/-- The bounds `(attack - 3, attack + 3)` of the `uniform_int_distribution` in
`Monster::calculateDamage`. -/
def Monster.damageDistribution (m : Monster) : Int × Int :=
  (m.attack - 3, m.attack + 3)

/-! ## Game -/

/-- Class `Game`, once `initialize()` has made the player. -/
structure Game where
  player : Player
  dungeon_level : Int
  running : Bool
  deriving DecidableEq, Repr

/-- The constructor `Game()` followed by `Game::initialize()` with the name read
from the input: dungeon level 1, running, and a fresh player. -/
def Game.start (playerName : String) : Game :=
  { player := Player.new playerName, dungeon_level := 1, running := true }

/-- `Game::rest`.  The 20 gold named in the message are not taken: the source
says so in its comment on line 444. -/
def Game.rest (g : Game) : Game :=
  if g.player.gold ≥ 20 then
    let healAmount := g.player.maxHealth - g.player.health
    if healAmount > 0 then { g with player := g.player.heal healAmount }
    else g
  else g

/-- What a call of `Game::fight` or `Game::handleInput` does: it returns, lets
the `GameOverException` of the battle through, or never returns. -/
inductive GameResult where
  | returned (g : Game) (cin : List Int) (pos : Nat)
  | gameOver (g : Game) (cin : List Int) (pos : Nat)
  | noReturn
  deriving DecidableEq, Repr

/-- `Game::fight`: one draw for the monster of the current dungeon level, then
the battle; the dungeon level goes up when the battle returns `true`. -/
def Game.fight (rng : Nat → Int) (g : Game) (pos : Nat) (cin : List Int) : GameResult :=
  let monster := MonsterFactory.createRandomMonster g.dungeon_level (rng pos)
  match BattleSystem.battle rng g.player monster (pos + 1) cin with
  | .returned true p _ cin1 pos1 =>
    .returned { g with player := p, dungeon_level := g.dungeon_level + 1 } cin1 pos1
  | .returned false p _ cin1 pos1 => .returned { g with player := p } cin1 pos1
  | .gameOver p _ cin1 pos1 => .gameOver { g with player := p } cin1 pos1
  | .noReturn => .noReturn

/-- `Game::handleInput`.  A failed read leaves `choice` at 0, which is the
`default` branch; its `InvalidActionException` is caught inside, so the call
returns with the game as it was.  Choices 2 and 3 only print. -/
def Game.handleInput (rng : Nat → Int) (g : Game) (pos : Nat) (cin : List Int) : GameResult :=
  match cin with
  | [] => .returned g [] pos
  | choice :: cin1 =>
    if choice = 1 then Game.fight rng g pos cin1
    else if choice = 2 then .returned g cin1 pos
    else if choice = 3 then .returned g cin1 pos
    else if choice = 4 then .returned g.rest cin1 pos
    else if choice = 5 then .returned { g with running := false } cin1 pos
    else .returned g cin1 pos

/-- The condition of the loop of `Game::run`: `running && player->isAlive()`. -/
def Game.loopCondition (g : Game) : Bool :=
  g.running && g.player.isAlive

/-- One iteration of the loop of `Game::run`: the condition holds and
`handleInput` is called, on some input and some random stream; the game after
it is the one `handleInput` returns with, or the one the `GameOverException`
leaves behind for the handler of `run`. -/
def Game.Step (g g1 : Game) : Prop :=
  g.loopCondition = true ∧
  ∃ (rng : Nat → Int) (pos : Nat) (cin cin1 : List Int) (pos1 : Nat),
    Game.handleInput rng g pos cin = .returned g1 cin1 pos1 ∨
    Game.handleInput rng g pos cin = .gameOver g1 cin1 pos1

/-- The game states a run of `main` can be in: the state after `initialize()`,
and every state an iteration of the loop of `run` leads to from such a state. -/
inductive Game.Reachable : Game → Prop where
  | start (playerName : String) : Game.Reachable (Game.start playerName)
  | step (g g1 : Game) : Game.Reachable g → Game.Step g g1 → Game.Reachable g1

/-! ## The 32-bit model

The definitions above compute over the mathematical integers.  A C++ `int`
holds 32 bits, and an addition, subtraction or multiplication whose exact
result does not fit leaves, on the two's-complement machines the program is
built for, that result reduced modulo `2^32` into `[-2^31, 2^31 - 1]`.  The
definitions below repeat every function that computes with `int`, with every
such operation reduced by `wrap`; their names end in `32`.  A draw `dis(gen)` of
`uniform_int_distribution<>(lo, hi)` is `uniformInt lo hi raw` for the raw
output `raw` of the generator, always within `[lo, hi]`, so the random stream of
this model is `rng : Nat → Nat`. -/

/-- The least `int`. -/
def intMin : Int := -2147483648

/-- The greatest `int`. -/
def intMax : Int := 2147483647

/-- The integers an `int` holds. -/
@[reducible] def IsInt (x : Int) : Prop :=
  intMin ≤ x ∧ x ≤ intMax

/-- The `int` left by an operation whose exact result is `x`. -/
def wrap (x : Int) : Int :=
  (x + 2147483648) % 4294967296 - 2147483648

/-- The value `dis(gen)` of `uniform_int_distribution<> dis(lo, hi)` for the
output `raw` of the generator. -/
def uniformInt (lo hi : Int) (raw : Nat) : Int :=
  lo + (raw : Int) % (hi - lo + 1)

/-- `Character::takeDamage` on `int`. -/
def Character.takeDamage32 (c : Character) (damage : Int) : Character :=
  let actualDamage := max 1 (wrap (damage - c.defense))
  let c1 := { c with health := wrap (c.health - actualDamage) }
  if c1.health ≤ 0 then { c1 with health := 0 } else c1

/-- `Character::heal` on `int`. -/
def Character.heal32 (c : Character) (amount : Int) : Character :=
  { c with health := min c.maxHealth (wrap (c.health + amount)) }

/-- The inherited `takeDamage` on a player, on `int`. -/
def Player.takeDamage32 (p : Player) (damage : Int) : Player :=
  { p with toCharacter := p.toCharacter.takeDamage32 damage }

/-- The inherited `heal` on a player, on `int`. -/
def Player.heal32 (p : Player) (amount : Int) : Player :=
  { p with toCharacter := p.toCharacter.heal32 amount }

/-- The inherited `takeDamage` on a monster, on `int`. -/
def Monster.takeDamage32 (m : Monster) (damage : Int) : Monster :=
  { m with toCharacter := m.toCharacter.takeDamage32 damage }

/-- `Player::calculateDamage` on `int`, for the output `raw` of the generator. -/
def Player.calculateDamage32 (p : Player) (raw : Nat) : Int :=
  max 1 (uniformInt (wrap (p.attack - 5)) (wrap (p.attack + 5)) raw)

/-- `Monster::calculateDamage` on `int`, for the output `raw` of the generator. -/
def Monster.calculateDamage32 (m : Monster) (raw : Nat) : Int :=
  max 1 (uniformInt (wrap (m.attack - 3)) (wrap (m.attack + 3)) raw)

/-- `Player::levelUp` on `int`. -/
def Player.levelUp32 (p : Player) : Player :=
  let p1 := { p with level := wrap (p.level + 1) }
  let hpIncrease : Int := 20
  let attIncrease : Int := 5
  let defIncrease : Int := 2
  let p2 := { p1 with maxHealth := wrap (p1.maxHealth + hpIncrease) }
  let p3 := { p2 with health := p2.maxHealth }
  let p4 := { p3 with attack := wrap (p3.attack + attIncrease) }
  { p4 with defense := wrap (p4.defense + defIncrease) }

/-- `Player::gainExperience` on `int`. -/
def Player.gainExperience32 (p : Player) (exp : Int) : Player :=
  let p1 := { p with experience := wrap (p.experience + exp) }
  if p1.experience ≥ wrap (p1.level * 100) then p1.levelUp32 else p1

/-- `Player::gainGold` on `int`. -/
def Player.gainGold32 (p : Player) (amount : Int) : Player :=
  { p with gold := wrap (p.gold + amount) }

/-- `Player::useItem` on `int`.  Past the guard `index - 1` is a valid position,
so only the heal and the attack bonus can overflow. -/
def Player.useItem32 (p : Player) (index : Int) : Except InvalidActionException Unit × Player :=
  if h : index < 1 ∨ index > (p.inventory.length : Int) then
    (.error { action := "잘못된 아이템 번호" }, p)
  else
    let item := p.inventory.get ⟨(index - 1).toNat, by omega⟩
    let p1 := if item.healAmount > 0 then p.heal32 item.healAmount else p
    let p2 :=
      if item.attackBonus > 0 then { p1 with attack := wrap (p1.attack + item.attackBonus) }
      else p1
    (.ok (), { p2 with inventory := p2.inventory.eraseIdx (index - 1).toNat })

/-- `MonsterFactory::createRandomMonster` on `int`, with `monsterType` the value
of `dis(gen)` for `dis(1, 4)`. -/
def MonsterFactory.createRandomMonster32 (playerLevel : Int) (monsterType : Int) : Monster :=
  let levelMultiplier := max 1 playerLevel
  if monsterType = 1 then
    Monster.new "슬라임" (wrap (30 + wrap (levelMultiplier * 10)))
      (wrap (8 + wrap (levelMultiplier * 2))) (wrap (1 + levelMultiplier))
      (wrap (20 + wrap (levelMultiplier * 5))) (wrap (10 + wrap (levelMultiplier * 3)))
  else if monsterType = 2 then
    Monster.new "고블린" (wrap (50 + wrap (levelMultiplier * 15)))
      (wrap (12 + wrap (levelMultiplier * 3))) (wrap (3 + levelMultiplier))
      (wrap (35 + wrap (levelMultiplier * 8))) (wrap (20 + wrap (levelMultiplier * 5)))
  else if monsterType = 3 then
    Monster.new "오크" (wrap (80 + wrap (levelMultiplier * 20)))
      (wrap (18 + wrap (levelMultiplier * 4))) (wrap (5 + wrap (levelMultiplier * 2)))
      (wrap (50 + wrap (levelMultiplier * 10))) (wrap (35 + wrap (levelMultiplier * 7)))
  else if monsterType = 4 then
    Monster.new "드래곤" (wrap (150 + wrap (levelMultiplier * 30)))
      (wrap (25 + wrap (levelMultiplier * 5))) (wrap (8 + wrap (levelMultiplier * 3)))
      (wrap (100 + wrap (levelMultiplier * 15))) (wrap (75 + wrap (levelMultiplier * 10)))
  else
    Monster.new "알 수 없는 몬스터" 40 10 2 25 15

/-- The monster's turn on `int`: one draw, then `player.takeDamage`. -/
def BattleSystem.monsterTurn32 (rng : Nat → Nat) (p : Player) (m : Monster) (pos : Nat) :
    Player :=
  let damage := m.calculateDamage32 (rng pos)
  p.takeDamage32 damage

/-- The loop of `BattleSystem::battle` on `int`: the control flow of
`battleLoop`, over the 32-bit operations and the raw random stream. -/
def BattleSystem.battleLoop32 (rng : Nat → Nat) (p : Player) (m : Monster) (pos : Nat)
    (cin : List Int) : LoopExit :=
  if p.isAlive && m.isAlive then
    match cin with
    | [] => .noReturn
    | choice :: cin1 =>
      if choice = 1 then
        let damage := p.calculateDamage32 (rng pos)
        let m1 := m.takeDamage32 damage
        if !m1.isAlive then .done p m1 cin1 (pos + 1)
        else battleLoop32 rng (monsterTurn32 rng p m1 (pos + 1)) m1 (pos + 2) cin1
      else if choice = 2 then
        if p.getInventorySize = 0 then battleLoop32 rng p m pos cin1
        else
          match cin1 with
          | [] => .noReturn
          | itemIndex :: cin2 =>
            match p.useItem32 itemIndex with
            | (.error _, p1) => battleLoop32 rng p1 m pos cin2
            | (.ok (), p1) =>
              if !m.isAlive then .done p1 m cin2 pos
              else battleLoop32 rng (monsterTurn32 rng p1 m pos) m (pos + 1) cin2
      else if choice = 3 then .fled p m cin1 pos
      else battleLoop32 rng p m pos cin1
  else .done p m cin pos

/-- The code of `BattleSystem::battle` after the loop, on `int`. -/
def BattleSystem.battleResult32 : LoopExit → BattleResult
  | .fled p m cin pos => .returned false p m cin pos
  | .done p m cin pos =>
    if p.isAlive then
      .returned true ((p.gainExperience32 m.expReward).gainGold32 m.goldReward) m cin pos
    else .gameOver p m cin pos
  | .noReturn => .noReturn

/-- `BattleSystem::battle` on `int`. -/
def BattleSystem.battle32 (rng : Nat → Nat) (p : Player) (m : Monster) (pos : Nat)
    (cin : List Int) : BattleResult :=
  battleResult32 (battleLoop32 rng p m pos cin)

/-- `Game::rest` on `int`. -/
def Game.rest32 (g : Game) : Game :=
  if g.player.gold ≥ 20 then
    let healAmount := wrap (g.player.maxHealth - g.player.health)
    if healAmount > 0 then { g with player := g.player.heal32 healAmount }
    else g
  else g

/-- `Game::fight` on `int`. -/
def Game.fight32 (rng : Nat → Nat) (g : Game) (pos : Nat) (cin : List Int) : GameResult :=
  let monster := MonsterFactory.createRandomMonster32 g.dungeon_level (uniformInt 1 4 (rng pos))
  match BattleSystem.battle32 rng g.player monster (pos + 1) cin with
  | .returned true p _ cin1 pos1 =>
    .returned { g with player := p, dungeon_level := wrap (g.dungeon_level + 1) } cin1 pos1
  | .returned false p _ cin1 pos1 => .returned { g with player := p } cin1 pos1
  | .gameOver p _ cin1 pos1 => .gameOver { g with player := p } cin1 pos1
  | .noReturn => .noReturn

/-- `Game::handleInput` on `int`. -/
def Game.handleInput32 (rng : Nat → Nat) (g : Game) (pos : Nat) (cin : List Int) :
    GameResult :=
  match cin with
  | [] => .returned g [] pos
  | choice :: cin1 =>
    if choice = 1 then Game.fight32 rng g pos cin1
    else if choice = 2 then .returned g cin1 pos
    else if choice = 3 then .returned g cin1 pos
    else if choice = 4 then .returned g.rest32 cin1 pos
    else if choice = 5 then .returned { g with running := false } cin1 pos
    else .returned g cin1 pos

/-- The first `n` iterations of the loop of `Game::run` on `int`: while the loop
condition holds `handleInput` is called; a `GameOverException` ends the loop
with the game as the exception leaves it. -/
def Game.iterate32 (rng : Nat → Nat) : Nat → Game → Nat → List Int → GameResult
  | 0, g, pos, cin => .returned g cin pos
  | n + 1, g, pos, cin =>
    if g.loopCondition then
      match Game.handleInput32 rng g pos cin with
      | .returned g1 cin1 pos1 => Game.iterate32 rng n g1 pos1 cin1
      | .gameOver g1 cin1 pos1 => .gameOver g1 cin1 pos1
      | .noReturn => .noReturn
    else .returned g cin pos

/-- The game is `g` after `n` iterations of the loop of `Game::run` (or fewer,
when the loop ended before), from the start of the game, for some name, random
stream and input. -/
def Game.ReachedAfter32 (n : Nat) (g : Game) : Prop :=
  ∃ (playerName : String) (rng : Nat → Nat) (cin cin1 : List Int) (pos1 : Nat),
    Game.iterate32 rng n (Game.start playerName) 0 cin = .returned g cin1 pos1 ∨
    Game.iterate32 rng n (Game.start playerName) 0 cin = .gameOver g cin1 pos1

/-! ## A long run: rest, fight, attack -/

/-- The input of `k` pairs `4 1`: at the main menu a 4 rests and a 1 starts a
fight; in a battle a 4 is an invalid choice and a 1 attacks. -/
def restAndAttack : Nat → List Int
  | 0 => []
  | k + 1 => 4 :: 1 :: restAndAttack k

/-- The random stream whose every raw output is 252: the monster draw is
`1 + 252 % 4 = 1` (the slime), the player's roll `attack - 5 + 252 % 11`, that
is `attack + 5`, and the monster's roll `attack - 3 + 252 % 7`, that is
`attack - 3`. -/
def steadyRng : Nat → Nat :=
  fun _ => 252

/-- The triangular numbers `0 + 1 + ... + n`. -/
def tri : Nat → Int
  | 0 => 0
  | n + 1 => tri n + ((n : Int) + 1)

/-- The largest gold a game can hold after `k` iterations of the loop of
`Game::run`: 50 and, for the iteration number `i`, at most the dragon's reward
`75 + 10 i`. -/
def goldBound : Nat → Int
  | 0 => 50
  | k + 1 => goldBound k + (75 + 10 * ((k : Int) + 1))

/-- The exact sum of the experience of the slimes of the dungeon levels 1 to `n`,
`20 + 5 i` each. -/
def expAfter (n : Nat) : Int :=
  20 * (n : Int) + 5 * tri n

/-- The exact sum of 50 and the gold of the slimes of the dungeon levels 1 to
`n`, `10 + 3 i` each. -/
def goldAfter (n : Nat) : Int :=
  50 + 10 * (n : Int) + 3 * tri n

/-- The stats of a player at level `l`: 5 attack, 2 defense and 20 maxHealth per
level over the constructor's 20, 5 and 100 at level 1. -/
def Player.AtLevel (l : Int) (p : Player) : Prop :=
  p.level = l ∧ p.attack = 15 + 5 * l ∧ p.defense = 3 + 2 * l ∧ p.maxHealth = 80 + 20 * l

/-- The game at the main menu after `n` wins of the long run: running, at
dungeon level `n + 1`, with gold `gold`, experience `e` and a living player of
level `l`. -/
def Game.AfterWins (n : Nat) (l e gold : Int) (g : Game) : Prop :=
  g.running = true ∧ g.dungeon_level = (n : Int) + 1 ∧ g.player.gold = gold ∧
  g.player.experience = e ∧ g.player.AtLevel l ∧
  0 < g.player.health ∧ g.player.health ≤ g.player.maxHealth

/-- The two phases of the long run.  Through 29304 wins the experience is the
exact sum and the level is at least `n - 5`; the win number 29305 overflows the
experience, which from then on is the exact sum less `2^32`, negative, so the
level stays where it was. -/
def LongRunPhase (n : Nat) (l e : Int) : Prop :=
  (n ≤ 29304 ∧ e = expAfter n ∧ 1 ≤ l ∧ (n : Int) - 5 ≤ l ∧ l ≤ (n : Int) + 1) ∨
  (29305 ≤ n ∧ e = expAfter n - 4294967296 ∧ 29299 ≤ l ∧ l ≤ 29305)

end SimpleRpg

/-! # Bank account of `chapter08/02_custom_exception.cpp`

The `double` amounts are modelled as exact rational numbers; rounding,
infinities and NaN are not modelled.
-/

namespace CustomException

/-- The two concrete exception classes under `BankException`:
`InsufficientFundsException(requested, available)` and `InvalidAmountException()`. -/
inductive BankException where
  | insufficientFunds (requested available : ℚ)
  | invalidAmount
  deriving DecidableEq

/-- Class `BankAccount`. -/
structure BankAccount where
  balance : ℚ
  deriving DecidableEq

/-- The constructor `BankAccount(initial)`. -/
def BankAccount.new (initial : ℚ) : BankAccount :=
  { balance := initial }

/-- `BankAccount::deposit`.  The result pairs what the call does (returns or
throws) with the account as the call leaves it. -/
def BankAccount.deposit (a : BankAccount) (amount : ℚ) :
    Except BankException Unit × BankAccount :=
  if amount ≤ 0 then (.error .invalidAmount, a)
  else (.ok (), { a with balance := a.balance + amount })

/-- `BankAccount::withdraw`. -/
def BankAccount.withdraw (a : BankAccount) (amount : ℚ) :
    Except BankException Unit × BankAccount :=
  if amount ≤ 0 then (.error .invalidAmount, a)
  else if amount > a.balance then (.error (.insufficientFunds amount a.balance), a)
  else (.ok (), { a with balance := a.balance - amount })

/-- `BankAccount::getBalance`. -/
def BankAccount.getBalance (a : BankAccount) : ℚ :=
  a.balance

/-- The first `try` block of `main`, lines 89-102: the three calls in order, the
first exception ending the block; every handler only prints. -/
def mainFirstTry (account : BankAccount) : BankAccount :=
  match account.deposit 50000 with
  | (.error _, a1) => a1
  | (.ok (), a1) =>
    match a1.withdraw 30000 with
    | (.error _, a2) => a2
    | (.ok (), a2) => (a2.withdraw (-1000)).2

/-- The second `try` block of `main`, lines 105-110. -/
def mainSecondTry (account : BankAccount) : BankAccount :=
  (account.withdraw 200000).2

/-- The function `main`: the final balance it prints. -/
def main : ℚ :=
  let account := BankAccount.new 100000
  (mainSecondTry (mainFirstTry account)).getBalance

end CustomException

namespace SimpleRpg

/-! # Theorems -/

/-! ## Unfolding lemmas for `useItem` -/

/-- An index outside `[1, inventory size]` makes `useItem` throw with the player untouched. -/
theorem useItem_of_invalid (p : Player) (index : Int)
    (h : index < 1 ∨ index > (p.inventory.length : Int)) :
    p.useItem index = (.error { action := "잘못된 아이템 번호" }, p) := by
  unfold Player.useItem
  rw [dif_pos h]

/-- An index inside `[1, inventory size]` makes `useItem` return, with the two
effects of the item in that slot applied and the slot erased. -/
theorem useItem_of_valid (p : Player) (index : Int)
    (h : ¬ (index < 1 ∨ index > (p.inventory.length : Int)))
    (hlt : (index - 1).toNat < p.inventory.length) :
    p.useItem index = (.ok (),
      { name := p.name
        health :=
          if (p.inventory.get ⟨(index - 1).toNat, hlt⟩).healAmount > 0 then
            min p.maxHealth (p.health + (p.inventory.get ⟨(index - 1).toNat, hlt⟩).healAmount)
          else p.health
        maxHealth := p.maxHealth
        attack :=
          if (p.inventory.get ⟨(index - 1).toNat, hlt⟩).attackBonus > 0 then
            p.attack + (p.inventory.get ⟨(index - 1).toNat, hlt⟩).attackBonus
          else p.attack
        defense := p.defense
        experience := p.experience
        level := p.level
        inventory := p.inventory.eraseIdx (index - 1).toNat
        gold := p.gold }) := by
  unfold Player.useItem
  rw [dif_neg h]
  dsimp only
  split_ifs <;> rfl

/-! ## The class invariant of `Player` -/

/-- Every player a program can hold has `maxHealth >= 100` and
`health <= maxHealth`, whatever arguments the member functions were given. -/
theorem reachable_maxHealth (p : Player) (h : p.Reachable) :
    100 ≤ p.maxHealth ∧ p.health ≤ p.maxHealth := by
  induction h with
  | new n => exact ⟨le_refl (100 : Int), le_refl (100 : Int)⟩
  | takeDamage p d _ ih =>
    simp only [Player.takeDamage, Character.takeDamage]
    split_ifs with h <;> simp only at h ⊢ <;> omega
  | heal p a _ ih =>
    simp only [Player.heal, Character.heal]
    omega
  | gainExperience p e _ ih =>
    simp only [Player.gainExperience, Player.levelUp]
    split_ifs <;> simp only <;> omega
  | gainGold p g _ ih => exact ih
  | useItem p i _ ih =>
    by_cases hidx : i < 1 ∨ i > (p.inventory.length : Int)
    · rw [useItem_of_invalid p i hidx]
      exact ih
    · rw [useItem_of_valid p i hidx (by omega)]
      simp only
      split_ifs <;> omega

/-! ## The battle loop: what holds at its exits -/

/-- What `useItem` never touches: experience, level, gold and maxHealth. -/
theorem useItem_frame (p : Player) (index : Int) :
    (p.useItem index).2.experience = p.experience ∧
    (p.useItem index).2.level = p.level ∧
    (p.useItem index).2.gold = p.gold ∧
    (p.useItem index).2.maxHealth = p.maxHealth := by
  by_cases h : index < 1 ∨ index > (p.inventory.length : Int)
  · rw [useItem_of_invalid p index h]
    exact ⟨rfl, rfl, rfl, rfl⟩
  · rw [useItem_of_valid p index h (by omega)]
    exact ⟨rfl, rfl, rfl, rfl⟩

/-- The maxHealth is not touched by `takeDamage`. -/
theorem takeDamage_maxHealth (c : Character) (d : Int) :
    (c.takeDamage d).maxHealth = c.maxHealth := by
  simp only [Character.takeDamage]
  split_ifs <;> rfl

/-- The health left by `takeDamage` is never negative. -/
theorem takeDamage_health_nonneg (c : Character) (d : Int) : 0 ≤ (c.takeDamage d).health := by
  simp only [Character.takeDamage]
  split_ifs with h <;> simp only at h ⊢ <;> omega

open BattleSystem in
/-- A property of the two combatants that survives a hit on the monster, a hit
on the player and a call of `useItem` holds at every exit of the battle loop
when it holds at its start. -/
theorem battleLoop_preserves (rng : Nat → Int) (Q : Player → Monster → Prop)
    (hatk : ∀ p m d, Q p m → Q p (m.takeDamage d))
    (hdef : ∀ p m d, Q p m → Q (p.takeDamage d) m)
    (huse : ∀ p m i, Q p m → Q (p.useItem i).2 m)
    (p : Player) (m : Monster) (pos : Nat) (cin : List Int) (h : Q p m) :
    (battleLoop rng p m pos cin).Sat Q := by
  induction p, m, pos, cin using battleLoop.induct rng with
  | case1 p m pos hal => rw [battleLoop.eq_def]; simp [hal, LoopExit.Sat]
  | case2 p m pos hal cin2 damage m1 hdead =>
    rw [battleLoop.eq_def]
    simp only [hal, if_true]
    rw [if_pos hdead]
    exact hatk _ _ _ h
  | case3 p m pos hal cin2 damage m1 hlive ih =>
    rw [battleLoop.eq_def]
    simp only [hal, if_true]
    rw [if_neg hlive]
    exact ih (hdef _ _ _ (hatk _ _ _ h))
  | case4 p m pos hal cin2 hemp _ ih =>
    rw [battleLoop.eq_def]
    simp only [hal, if_true, hemp]
    exact ih h
  | case5 p m pos hal hne _ =>
    rw [battleLoop.eq_def]
    simp [hal, hne, LoopExit.Sat]
  | case6 p m pos hal hne i cin2 a p1 huse1 _ ih =>
    rw [battleLoop.eq_def]
    simp only [hal, if_true, hne, if_false, huse1]
    have := huse p m i h
    rw [huse1] at this
    exact ih this
  | case7 p m pos hal hne i cin2 p1 huse1 hdead _ =>
    rw [battleLoop.eq_def]
    simp only [hal, if_true, hne, if_false, huse1]
    rw [if_pos hdead]
    have := huse p m i h
    rw [huse1] at this
    exact this
  | case8 p m pos hal hne i cin2 p1 huse1 hlive _ ih =>
    rw [battleLoop.eq_def]
    simp only [hal, if_true, hne, if_false, huse1]
    rw [if_neg hlive]
    have := huse p m i h
    rw [huse1] at this
    exact ih (hdef _ _ _ this)
  | case9 p m pos hal cin2 _ _ =>
    rw [battleLoop.eq_def]
    simp only [hal, if_true]
    exact h
  | case10 p m pos hal c cin2 h1 h2 h3 ih =>
    rw [battleLoop.eq_def]
    simp only [hal, if_true, h1, h2, h3, if_false]
    exact ih h
  | case11 p m pos cin hal =>
    rw [battleLoop.eq_def]
    simp only [hal]
    exact h

open BattleSystem in
/-- When the loop is left without fleeing, the player or the monster is dead. -/
theorem battleLoop_done_dead (rng : Nat → Int) (p : Player) (m : Monster) (pos : Nat)
    (cin : List Int) :
    ∀ p1 m1 cin1 pos1, battleLoop rng p m pos cin = .done p1 m1 cin1 pos1 →
      (p1.isAlive && m1.isAlive) = false := by
  induction p, m, pos, cin using battleLoop.induct rng with
  | case1 p m pos hal => rw [battleLoop.eq_def]; simp [hal]
  | case2 p m pos hal cin2 damage m1 hdead =>
    rw [battleLoop.eq_def]
    simp only [hal, if_true]
    rw [if_pos hdead]
    intro p1 m2 cin1 pos1 heq
    injection heq with e1 e2 e3 e4
    subst e1 e2
    simp only [Bool.and_eq_false_iff]
    exact Or.inr (by simpa using hdead)
  | case3 p m pos hal cin2 damage m1 hlive ih =>
    rw [battleLoop.eq_def]
    simp only [hal, if_true]
    rw [if_neg hlive]
    exact ih
  | case4 p m pos hal cin2 hemp _ ih =>
    rw [battleLoop.eq_def]
    simp only [hal, if_true, hemp]
    exact ih
  | case5 p m pos hal hne _ =>
    rw [battleLoop.eq_def]
    simp [hal, hne]
  | case6 p m pos hal hne i cin2 a p1 huse1 _ ih =>
    rw [battleLoop.eq_def]
    simp only [hal, if_true, hne, if_false, huse1]
    exact ih
  | case7 p m pos hal hne i cin2 p1 huse1 hdead _ =>
    rw [battleLoop.eq_def]
    simp only [hal, if_true, hne, if_false, huse1]
    rw [if_pos hdead]
    intro p2 m2 cin1 pos1 heq
    injection heq with e1 e2 e3 e4
    subst e1 e2
    simp only [Bool.and_eq_false_iff]
    exact Or.inr (by simpa using hdead)
  | case8 p m pos hal hne i cin2 p1 huse1 hlive _ ih =>
    rw [battleLoop.eq_def]
    simp only [hal, if_true, hne, if_false, huse1]
    rw [if_neg hlive]
    exact ih
  | case9 p m pos hal cin2 _ _ =>
    rw [battleLoop.eq_def]
    simp [hal]
  | case10 p m pos hal c cin2 h1 h2 h3 ih =>
    rw [battleLoop.eq_def]
    simp only [hal, if_true, h1, h2, h3, if_false]
    exact ih
  | case11 p m pos cin hal =>
    rw [battleLoop.eq_def]
    simp only [hal]
    intro p2 m2 cin1 pos1 heq
    injection heq with e1 e2 e3 e4
    subst e1 e2
    simpa using hal

/-! ## Player -/

/-- C4: `useItem(index)` throws `InvalidActionException` exactly when
`index < 1` or `index > inventory size`, and when it throws the whole player
state is as before the call. -/
theorem useItem_throws_iff (p : Player) (index : Int) :
    ((∃ e, (p.useItem index).1 = .error e) ↔ (index < 1 ∨ index > p.getInventorySize)) ∧
    (∀ e, (p.useItem index).1 = .error e → (p.useItem index).2 = p) := by
  by_cases h : index < 1 ∨ index > (p.inventory.length : Int)
  · rw [useItem_of_invalid p index h]
    exact ⟨⟨fun _ => h, fun _ => ⟨_, rfl⟩⟩, fun _ _ => rfl⟩
  · rw [useItem_of_valid p index h (by omega)]
    refine ⟨⟨?_, fun h2 => absurd h2 h⟩, ?_⟩
    · rintro ⟨e, he⟩
      exact absurd he (by simp)
    · intro e he
      exact absurd he (by simp)

/-- Witness for C4: with the two starting items, `useItem(3)` throws and the
inventory still has two items. -/
theorem useItem_throws_iff_witness :
    (∃ e, ((Player.new "Hero").useItem 3).1 = .error e) ∧
    ((Player.new "Hero").useItem 3).2.inventory.length = 2 :=
  ⟨(useItem_throws_iff (Player.new "Hero") 3).1.2 (by decide), by decide⟩

/-- C5: `useItem(index)` with `1 <= index <= inventory size` returns and erases
exactly the slot at the 1-based position `index`: the new inventory is the
items before that slot followed by the items after it, in their order, and is
one item shorter. -/
theorem useItem_erases_slot (p : Player) (index : Int)
    (h1 : 1 ≤ index) (h2 : index ≤ p.getInventorySize) :
    (p.useItem index).1 = .ok () ∧
    (p.useItem index).2.inventory = p.inventory.eraseIdx (index - 1).toNat ∧
    (p.useItem index).2.inventory =
      p.inventory.take (index - 1).toNat ++ p.inventory.drop index.toNat ∧
    ((p.useItem index).2.inventory.length : Int) = (p.inventory.length : Int) - 1 := by
  unfold Player.getInventorySize at h2
  have hidx : ¬ (index < 1 ∨ index > (p.inventory.length : Int)) := by omega
  have hlt : (index - 1).toNat < p.inventory.length := by omega
  rw [useItem_of_valid p index hidx hlt]
  refine ⟨rfl, rfl, ?_, ?_⟩
  · have hsucc : index.toNat = (index - 1).toNat + 1 := by omega
    simp only [hsucc]
    exact List.eraseIdx_eq_take_drop_succ _ _
  · simp only [List.length_eraseIdx, hlt, if_true]
    omega

/-- Witness for C5: using item 1 of the two starting items leaves only the second. -/
theorem useItem_erases_slot_witness :
    ((Player.new "Hero").useItem 1).2.inventory =
      [{ name := "힘의 물약", healAmount := 0, attackBonus := 10 }] :=
  (useItem_erases_slot (Player.new "Hero") 1 (by decide) (by decide)).2.2.1.trans (by decide)

open BattleSystem in
/-- C10: on a player turn (both alive) the choice 3 ends the battle at once
with result `false` and both combatants as they were; and whenever a battle
returns `false` or throws `GameOverException` (then the player is dead), the
player's experience, level and gold are those of the start of the battle. -/
theorem battle_no_reward_without_victory (rng : Nat → Int) (p : Player) (m : Monster)
    (pos : Nat) (cin : List Int) :
    ((p.isAlive && m.isAlive) = true →
      battle rng p m pos (3 :: cin) = .returned false p m cin pos) ∧
    (∀ p1 m1 cin1 pos1, battle rng p m pos cin = .returned false p1 m1 cin1 pos1 →
      p1.experience = p.experience ∧ p1.level = p.level ∧ p1.gold = p.gold) ∧
    (∀ p1 m1 cin1 pos1, battle rng p m pos cin = .gameOver p1 m1 cin1 pos1 →
      p1.isAlive = false ∧
      p1.experience = p.experience ∧ p1.level = p.level ∧ p1.gold = p.gold) := by
  have hQ := battleLoop_preserves rng
    (fun q _ => q.experience = p.experience ∧ q.level = p.level ∧ q.gold = p.gold)
    (fun q n d hq => hq)
    (fun q n d hq => hq)
    (fun q n i hq => ⟨(useItem_frame q i).1.trans hq.1, (useItem_frame q i).2.1.trans hq.2.1,
      (useItem_frame q i).2.2.1.trans hq.2.2⟩)
    p m pos cin ⟨rfl, rfl, rfl⟩
  refine ⟨?_, ?_, ?_⟩
  · intro hal
    unfold battle
    rw [battleLoop.eq_def]
    simp [hal, battleResult]
  · intro p1 m1 cin1 pos1 h
    unfold battle at h
    cases hloop : battleLoop rng p m pos cin with
    | done q n c k =>
      rw [hloop] at h
      simp only [battleResult] at h
      split_ifs at h
      exact absurd h (by simp)
    | fled q n c k =>
      rw [hloop] at h hQ
      simp only [battleResult] at h
      injection h with _ e1 e2 e3 e4
      subst e1
      exact hQ
    | noReturn =>
      rw [hloop] at h
      simp [battleResult] at h
  · intro p1 m1 cin1 pos1 h
    unfold battle at h
    cases hloop : battleLoop rng p m pos cin with
    | done q n c k =>
      rw [hloop] at h hQ
      simp only [battleResult] at h
      split_ifs at h with hal
      injection h with e1 e2 e3 e4
      subst e1
      exact ⟨by simpa using hal, hQ⟩
    | fled q n c k =>
      rw [hloop] at h
      simp [battleResult] at h
    | noReturn =>
      rw [hloop] at h
      simp [battleResult] at h

open BattleSystem in
/-- Witness for C10: against the level-1 slime the fresh player attacks once,
is hit for 5 and flees, keeping experience 0, level 1 and gold 50; against
the level-1 dragon (attack 30) four rounds of 25 damage kill the player, and
the `GameOverException` leaves experience 0, level 1 and gold 50 too. -/
theorem battle_no_reward_without_victory_witness :
    battle (fun n => if n % 2 = 0 then 20 else 10) (Player.new "Hero")
        (MonsterFactory.createRandomMonster 1 1) 0 [1, 3, 1] =
      .returned false
        ({ name := "Hero", health := 95, maxHealth := 100, attack := 20, defense := 5,
           experience := 0, level := 1,
           inventory := [{ name := "체력 포션", healAmount := 30, attackBonus := 0 },
                         { name := "힘의 물약", healAmount := 0, attackBonus := 10 }],
           gold := 50 } : Player)
        ({ name := "슬라임", health := 22, maxHealth := 40, attack := 10, defense := 2,
           expReward := 25, goldReward := 13 } : Monster)
        [1] 2 ∧
    battle (fun n => if n % 2 = 0 then 20 else 30) (Player.new "Hero")
        (MonsterFactory.createRandomMonster 1 4) 0 [1, 1, 1, 1, 3] =
      .gameOver
        ({ name := "Hero", health := 0, maxHealth := 100, attack := 20, defense := 5,
           experience := 0, level := 1,
           inventory := [{ name := "체력 포션", healAmount := 30, attackBonus := 0 },
                         { name := "힘의 물약", healAmount := 0, attackBonus := 10 }],
           gold := 50 } : Player)
        ({ name := "드래곤", health := 144, maxHealth := 180, attack := 30, defense := 11,
           expReward := 115, goldReward := 85 } : Monster)
        [3] 8 ∧
    ((0 : Int) = 0 ∧ (1 : Int) = 1 ∧ (50 : Int) = 50) :=
  ⟨(by decide : battle (fun n => if n % 2 = 0 then 20 else 10) (Player.new "Hero")
        (MonsterFactory.createRandomMonster 1 1) 0 [1, 3, 1] =
      battle (fun n => if n % 2 = 0 then 20 else 10)
        (BattleSystem.monsterTurn (fun n => if n % 2 = 0 then 20 else 10) (Player.new "Hero")
          (MonsterFactory.createRandomMonster 1 1) 1)
        (Monster.takeDamage (MonsterFactory.createRandomMonster 1 1) 20) 2 [3, 1]).trans
    ((battle_no_reward_without_victory (fun n => if n % 2 = 0 then 20 else 10)
      ({ name := "Hero", health := 95, maxHealth := 100, attack := 20, defense := 5,
           experience := 0, level := 1,
           inventory := [{ name := "체력 포션", healAmount := 30, attackBonus := 0 },
                         { name := "힘의 물약", healAmount := 0, attackBonus := 10 }],
           gold := 50 } : Player)
      ({ name := "슬라임", health := 22, maxHealth := 40, attack := 10, defense := 2,
           expReward := 25, goldReward := 13 } : Monster)
      2 [1]).1 (by decide)),
   by decide,
   ((battle_no_reward_without_victory (fun n => if n % 2 = 0 then 20 else 30)
      (Player.new "Hero") (MonsterFactory.createRandomMonster 1 4) 0 [1, 1, 1, 1, 3]).2.2
      ({ name := "Hero", health := 0, maxHealth := 100, attack := 20, defense := 5,
           experience := 0, level := 1,
           inventory := [{ name := "체력 포션", healAmount := 30, attackBonus := 0 },
                         { name := "힘의 물약", healAmount := 0, attackBonus := 10 }],
           gold := 50 } : Player)
      ({ name := "드래곤", health := 144, maxHealth := 180, attack := 30, defense := 11,
           expReward := 115, goldReward := 85 } : Monster)
      [3] 8 (by decide)).2⟩

/-! ## Game: rest -/

/-- C12: for a draw `r` inside the bounds of the distribution, the player's
damage is `max(1, r)`, at least 1 and at most `max(1, attack + 5)`; the
monster's damage is `max(1, r)`, at least 1 and at most `max(1, attack + 3)`. -/
theorem calculateDamage_bounds (p : Player) (m : Monster) (r s : Int)
    (hr : p.damageDistribution.1 ≤ r ∧ r ≤ p.damageDistribution.2)
    (hs : m.damageDistribution.1 ≤ s ∧ s ≤ m.damageDistribution.2) :
    (p.attack - 5 ≤ r ∧ r ≤ p.attack + 5) ∧
    (p.calculateDamage r = max 1 r ∧ 1 ≤ p.calculateDamage r ∧
      p.calculateDamage r ≤ max 1 (p.attack + 5)) ∧
    (m.attack - 3 ≤ s ∧ s ≤ m.attack + 3) ∧
    (m.calculateDamage s = max 1 s ∧ 1 ≤ m.calculateDamage s ∧
      m.calculateDamage s ≤ max 1 (m.attack + 3)) := by
  simp only [Player.damageDistribution, Monster.damageDistribution] at hr hs
  exact ⟨hr, ⟨rfl, le_max_left 1 r, max_le_max (le_refl 1) hr.2⟩,
    hs, ⟨rfl, le_max_left 1 s, max_le_max (le_refl 1) hs.2⟩⟩

/-- Witness for C12: the fresh player (attack 20) drawing 15 deals 15, and a
monster of attack 2 drawing -1 deals the minimum 1. -/
theorem calculateDamage_bounds_witness :
    (Player.new "Hero").calculateDamage 15 = max 1 15 ∧
    (Monster.new "Rat" 10 2 0 5 5).calculateDamage (-1) ≤ max 1 (2 + 3) :=
  ⟨(calculateDamage_bounds (Player.new "Hero") (Monster.new "Rat" 10 2 0 5 5) 15 (-1)
      (by decide) (by decide)).2.1.1,
   (calculateDamage_bounds (Player.new "Hero") (Monster.new "Rat" 10 2 0 5 5) 15 (-1)
      (by decide) (by decide)).2.2.2.2.2⟩

/-! ## The battle loop: one iteration -/

open BattleSystem in
/-- The iteration of choice 1 on a player turn: the player's hit, then the
`break` on a dead monster or the monster's turn and the next iteration. -/
theorem battleLoop_attack (rng : Nat → Int) (p : Player) (m : Monster) (pos : Nat)
    (cin : List Int) (hal : (p.isAlive && m.isAlive) = true) :
    battleLoop rng p m pos (1 :: cin) =
      if (m.takeDamage (p.calculateDamage (rng pos))).isAlive = true then
        battleLoop rng (monsterTurn rng p (m.takeDamage (p.calculateDamage (rng pos))) (pos + 1))
          (m.takeDamage (p.calculateDamage (rng pos))) (pos + 2) cin
      else .done p (m.takeDamage (p.calculateDamage (rng pos))) cin (pos + 1) := by
  rw [battleLoop.eq_def]
  simp only [hal, if_true]
  by_cases h : (m.takeDamage (p.calculateDamage (rng pos))).isAlive = true
  · simp [h]
  · simp [h]

open BattleSystem in
/-- The iteration of a choice other than 1, 2 and 3 on a player turn: the
exception is caught and `continue` starts the next iteration. -/
theorem battleLoop_other (rng : Nat → Int) (p : Player) (m : Monster) (pos : Nat)
    (c : Int) (cin : List Int) (hal : (p.isAlive && m.isAlive) = true)
    (h1 : c ≠ 1) (h2 : c ≠ 2) (h3 : c ≠ 3) :
    battleLoop rng p m pos (c :: cin) = battleLoop rng p m pos cin := by
  rw [battleLoop.eq_def]
  simp only [hal, if_true, h1, h2, h3, if_false]

open BattleSystem in
/-- The iteration of choice 2 with an empty inventory: `continue`. -/
theorem battleLoop_item_empty (rng : Nat → Int) (p : Player) (m : Monster) (pos : Nat)
    (cin : List Int) (hal : (p.isAlive && m.isAlive) = true) (hemp : p.getInventorySize = 0) :
    battleLoop rng p m pos (2 :: cin) = battleLoop rng p m pos cin := by
  rw [battleLoop.eq_def]
  simp [hal, hemp]

open BattleSystem in
/-- The iteration of choice 2 with items: what `useItem` does decides between
the `catch` with its `continue` and the monster's turn. -/
theorem battleLoop_item (rng : Nat → Int) (p : Player) (m : Monster) (pos : Nat)
    (i : Int) (cin : List Int) (hal : (p.isAlive && m.isAlive) = true)
    (hne : p.getInventorySize ≠ 0) :
    battleLoop rng p m pos (2 :: i :: cin) =
      match p.useItem i with
      | (.error _, p1) => battleLoop rng p1 m pos cin
      | (.ok (), p1) => battleLoop rng (monsterTurn rng p1 m pos) m (pos + 1) cin := by
  have hm : m.isAlive = true := by
    simp only [Bool.and_eq_true] at hal
    exact hal.2
  rw [battleLoop.eq_def]
  simp only [hal, if_true, hne, if_false]
  split <;> simp_all

/-! ## The battle: invalid actions and the monster's turn -/

open BattleSystem in
/-- C15: on a player turn (both alive) a choice outside 1, 2, 3, the choice 2
with an empty inventory, and the choice 2 with an item index outside
`[1, inventory size]` all leave the loop at its next iteration with the same
player, the same monster and the same position in the random stream (the
monster has not drawn, so it has not attacked); the next number typed is read
as a menu choice again: a 3 flees with both combatants as they were. -/
theorem battle_invalid_action_reprompts (rng : Nat → Int) (p : Player) (m : Monster)
    (pos : Nat) (cin : List Int) (hal : (p.isAlive && m.isAlive) = true) :
    (∀ c : Int, c ≠ 1 → c ≠ 2 → c ≠ 3 →
      battleLoop rng p m pos (c :: cin) = battleLoop rng p m pos cin ∧
      battleLoop rng p m pos (c :: 3 :: cin) = .fled p m cin pos) ∧
    (p.getInventorySize = 0 →
      battleLoop rng p m pos (2 :: cin) = battleLoop rng p m pos cin ∧
      battleLoop rng p m pos (2 :: 3 :: cin) = .fled p m cin pos) ∧
    (∀ i : Int, p.getInventorySize ≠ 0 → (i < 1 ∨ i > p.getInventorySize) →
      battleLoop rng p m pos (2 :: i :: cin) = battleLoop rng p m pos cin ∧
      battleLoop rng p m pos (2 :: i :: 3 :: cin) = .fled p m cin pos) := by
  have hflee : battleLoop rng p m pos (3 :: cin) = .fled p m cin pos := by
    rw [battleLoop.eq_def]
    simp [hal]
  refine ⟨?_, ?_, ?_⟩
  · intro c h1 h2 h3
    exact ⟨battleLoop_other rng p m pos c cin hal h1 h2 h3,
      (battleLoop_other rng p m pos c (3 :: cin) hal h1 h2 h3).trans hflee⟩
  · intro hemp
    exact ⟨battleLoop_item_empty rng p m pos cin hal hemp,
      (battleLoop_item_empty rng p m pos (3 :: cin) hal hemp).trans hflee⟩
  · intro i hne hi
    have huse := useItem_of_invalid p i hi
    have hstep : ∀ rest, battleLoop rng p m pos (2 :: i :: rest) = battleLoop rng p m pos rest := by
      intro rest
      rw [battleLoop_item rng p m pos i rest hal hne, huse]
    exact ⟨hstep cin, (hstep (3 :: cin)).trans hflee⟩

open BattleSystem in
/-- Witness for C15: the fresh player facing the level-1 slime types 9, then 2
and the item index 5, then 3: the battle ends by fleeing with the player, the
slime and the random stream untouched. -/
theorem battle_invalid_action_reprompts_witness :
    battleLoop (fun n => if n % 2 = 0 then 20 else 10) (Player.new "Hero")
        (MonsterFactory.createRandomMonster 1 1) 0 [9, 2, 5, 3] =
      .fled (Player.new "Hero") (MonsterFactory.createRandomMonster 1 1) [] 0 :=
  ((battle_invalid_action_reprompts (fun n => if n % 2 = 0 then 20 else 10) (Player.new "Hero")
      (MonsterFactory.createRandomMonster 1 1) 0 [2, 5, 3] (by decide)).1 9
      (by decide) (by decide) (by decide)).1.trans
    ((battle_invalid_action_reprompts (fun n => if n % 2 = 0 then 20 else 10) (Player.new "Hero")
      (MonsterFactory.createRandomMonster 1 1) 0 [] (by decide)).2.2 5
      (by decide) (by decide)).2

/-- A hit lowers a positive health by at least 1. -/
theorem takeDamage_health_lt (c : Character) (d : Int) (h : 0 < c.health) :
    (c.takeDamage d).health ≤ c.health - 1 := by
  simp only [Character.takeDamage]
  split_ifs with h1 <;> simp only at h1 ⊢ <;> omega

open BattleSystem in
/-- With `n` attacks typed and a monster of health at most `n`, the loop is left
at its condition or its `break`, having read at most `n` choices. -/
theorem battleLoop_attacks_done (rng : Nat → Int) (rest : List Int) (n : Nat) :
    ∀ (p : Player) (m : Monster) (pos : Nat), m.health ≤ (n : Int) →
      ∃ (j : Nat) (p1 : Player) (m1 : Monster) (pos1 : Nat), j ≤ n ∧
        battleLoop rng p m pos (List.replicate n 1 ++ rest) =
          .done p1 m1 (List.replicate j 1 ++ rest) pos1 := by
  induction n with
  | zero =>
    intro p m pos hm
    have hdead : (p.isAlive && m.isAlive) = false := by
      simp only [Bool.and_eq_false_iff, Monster.isAlive, Character.isAlive,
        decide_eq_false_iff_not]
      right
      simp only [Nat.cast_zero] at hm
      omega
    refine ⟨0, p, m, pos, le_refl 0, ?_⟩
    rw [battleLoop.eq_def]
    simp [hdead]
  | succ n ih =>
    intro p m pos hm
    by_cases hal : (p.isAlive && m.isAlive) = true
    · have hmpos : 0 < m.health := by
        simp only [Bool.and_eq_true, Monster.isAlive, Character.isAlive,
          decide_eq_true_eq] at hal
        exact hal.2
      have hlt := takeDamage_health_lt m.toCharacter (p.calculateDamage (rng pos)) hmpos
      have hle : (m.takeDamage (p.calculateDamage (rng pos))).health ≤ (n : Int) := by
        have : (m.takeDamage (p.calculateDamage (rng pos))).health =
            (m.toCharacter.takeDamage (p.calculateDamage (rng pos))).health := rfl
        rw [this]
        push_cast at hm
        omega
      rw [List.replicate_succ, List.cons_append, battleLoop_attack rng p m pos _ hal]
      by_cases hlive : (m.takeDamage (p.calculateDamage (rng pos))).isAlive = true
      · rw [if_pos hlive]
        obtain ⟨j, p1, m1, pos1, hj, heq⟩ :=
          ih (monsterTurn rng p (m.takeDamage (p.calculateDamage (rng pos))) (pos + 1))
            (m.takeDamage (p.calculateDamage (rng pos))) (pos + 2) hle
        exact ⟨j, p1, m1, pos1, Nat.le_succ_of_le hj, heq⟩
      · rw [if_neg hlive]
        exact ⟨n, p, _, pos + 1, Nat.le_succ n, rfl⟩
    · have hdead : (p.isAlive && m.isAlive) = false := by
        simpa using hal
      refine ⟨n + 1, p, m, pos, le_refl _, ?_⟩
      rw [battleLoop.eq_def]
      simp [hdead]

open BattleSystem in
/-- C19: a battle started with both combatants alive, against a monster of
health `h`, in which the player types 1 on every turn, ends after `k` player
turns with `1 <= k <= h`, whatever the rolls: it returns `true` or throws
`GameOverException`, and of the `h` attacks typed the last `h - k` are unread. -/
theorem battle_of_attacks_terminates (rng : Nat → Int) (p : Player) (m : Monster)
    (pos : Nat) (rest : List Int) (hp : p.isAlive = true) (hm : m.isAlive = true) :
    ∃ (k : Nat) (p1 : Player) (m1 : Monster) (pos1 : Nat),
      1 ≤ k ∧ (k : Int) ≤ m.health ∧
      (battle rng p m pos (List.replicate m.health.toNat 1 ++ rest) =
          .returned true p1 m1 (List.replicate (m.health.toNat - k) 1 ++ rest) pos1 ∨
       battle rng p m pos (List.replicate m.health.toNat 1 ++ rest) =
          .gameOver p1 m1 (List.replicate (m.health.toNat - k) 1 ++ rest) pos1) := by
  have hmpos : 0 < m.health := by
    simpa [Monster.isAlive, Character.isAlive] using hm
  have hal : (p.isAlive && m.isAlive) = true := by simp [hp, hm]
  obtain ⟨n, hn⟩ : ∃ n : Nat, m.health.toNat = n + 1 := ⟨m.health.toNat - 1, by omega⟩
  have hlt := takeDamage_health_lt m.toCharacter (p.calculateDamage (rng pos)) hmpos
  have hle : (m.takeDamage (p.calculateDamage (rng pos))).health ≤ (n : Int) := by
    have : (m.takeDamage (p.calculateDamage (rng pos))).health =
        (m.toCharacter.takeDamage (p.calculateDamage (rng pos))).health := rfl
    rw [this]
    omega
  have hloop : ∃ (j : Nat) (p1 : Player) (m1 : Monster) (pos1 : Nat), j ≤ n ∧
      battleLoop rng p m pos (List.replicate (n + 1) 1 ++ rest) =
        .done p1 m1 (List.replicate j 1 ++ rest) pos1 := by
    rw [List.replicate_succ, List.cons_append, battleLoop_attack rng p m pos _ hal]
    by_cases hlive : (m.takeDamage (p.calculateDamage (rng pos))).isAlive = true
    · rw [if_pos hlive]
      exact battleLoop_attacks_done rng rest n _ _ _ hle
    · rw [if_neg hlive]
      exact ⟨n, p, _, pos + 1, le_refl n, rfl⟩
  obtain ⟨j, p1, m1, pos1, hj, heq⟩ := hloop
  have hk : m.health.toNat - (n + 1 - j) = j := by omega
  by_cases hp1 : p1.isAlive = true
  · refine ⟨n + 1 - j, (p1.gainExperience m1.expReward).gainGold m1.goldReward, m1, pos1,
      by omega, by omega, Or.inl ?_⟩
    rw [hk, hn]
    unfold battle
    rw [heq]
    simp only [battleResult, hp1, if_true]
  · refine ⟨n + 1 - j, p1, m1, pos1, by omega, by omega, Or.inr ?_⟩
    rw [hk, hn]
    unfold battle
    rw [heq]
    simp only [battleResult, hp1]
    rfl

open BattleSystem in
/-- Witness for C19: the fresh player attacks the level-1 slime (health 40) with
rolls of 20; of the 40 attacks typed only 3 are read and the battle returns
`true`. -/
theorem battle_of_attacks_terminates_witness :
    (∃ (k : Nat) (p1 : Player) (m1 : Monster) (pos1 : Nat),
      1 ≤ k ∧ (k : Int) ≤ 40 ∧
      (battle (fun n => if n % 2 = 0 then 20 else 10) (Player.new "Hero")
          (MonsterFactory.createRandomMonster 1 1) 0 (List.replicate 40 1 ++ []) =
          .returned true p1 m1 (List.replicate (40 - k) 1 ++ []) pos1 ∨
       battle (fun n => if n % 2 = 0 then 20 else 10) (Player.new "Hero")
          (MonsterFactory.createRandomMonster 1 1) 0 (List.replicate 40 1 ++ []) =
          .gameOver p1 m1 (List.replicate (40 - k) 1 ++ []) pos1)) ∧
    (∃ p1 m1, battle (fun n => if n % 2 = 0 then 20 else 10) (Player.new "Hero")
        (MonsterFactory.createRandomMonster 1 1) 0 (List.replicate 40 1) =
      .returned true p1 m1 (List.replicate 37 1) 5) :=
  ⟨battle_of_attacks_terminates (fun n => if n % 2 = 0 then 20 else 10) (Player.new "Hero")
      (MonsterFactory.createRandomMonster 1 1) 0 [] (by decide) (by decide),
   ⟨_, _, rfl⟩⟩

/-! ## Game: what a menu action changes -/

/-- C17: `handleInput` with a choice outside 1..5 returns (nothing is thrown
to the caller) with the whole game as it was, so when the loop of `run` was
running it goes round again from the same state; the choice 5 returns with
`running` false, the player and the dungeon level as they were, and the loop
condition false. -/
theorem handleInput_invalid_and_quit (rng : Nat → Int) (g : Game) (pos : Nat)
    (cin : List Int) :
    (∀ c : Int, (c < 1 ∨ 5 < c) →
      Game.handleInput rng g pos (c :: cin) = .returned g cin pos) ∧
    (g.loopCondition = true → Game.Step g g) ∧
    (∃ g1, Game.handleInput rng g pos (5 :: cin) = .returned g1 cin pos ∧
      g1.running = false ∧ g1.player = g.player ∧ g1.dungeon_level = g.dungeon_level ∧
      g1.loopCondition = false) := by
  have hinv : ∀ c : Int, (c < 1 ∨ 5 < c) →
      Game.handleInput rng g pos (c :: cin) = .returned g cin pos := by
    intro c hc
    have h1 : c ≠ 1 := by omega
    have h2 : c ≠ 2 := by omega
    have h3 : c ≠ 3 := by omega
    have h4 : c ≠ 4 := by omega
    have h5 : c ≠ 5 := by omega
    simp only [Game.handleInput, h1, h2, h3, h4, h5, if_false]
  refine ⟨hinv, ?_, ?_⟩
  · intro hloop
    exact ⟨hloop, rng, pos, 9 :: cin, cin, pos, Or.inl (hinv 9 (by omega))⟩
  · refine ⟨{ g with running := false }, ?_, rfl, rfl, rfl, ?_⟩
    · simp [Game.handleInput]
    · simp [Game.loopCondition]

/-- Witness for C17: at the start of the game the choice 0 changes nothing and
the choice 5 only clears `running`. -/
theorem handleInput_invalid_and_quit_witness :
    Game.handleInput (fun _ => 1) (Game.start "Hero") 0 [0, 5] =
      .returned (Game.start "Hero") [5] 0 ∧
    Game.handleInput (fun _ => 1) (Game.start "Hero") 0 [5] =
      .returned { Game.start "Hero" with running := false } [] 0 :=
  ⟨(handleInput_invalid_and_quit (fun _ => 1) (Game.start "Hero") 0 [5]).1 0 (by decide),
   by decide⟩

/-! # Theorems on the 32-bit model -/

/-! ## The reduction to 32 bits -/

/-- An exact result that fits an `int` is what the operation leaves. -/
theorem wrap_of_isInt (x : Int) (h : IsInt x) : wrap x = x := by
  unfold IsInt intMin intMax at h
  unfold wrap
  omega

/-- What an operation leaves is an `int`. -/
theorem wrap_isInt (x : Int) : IsInt (wrap x) := by
  unfold IsInt intMin intMax wrap
  omega

/-- A draw lies within the bounds of its distribution. -/
theorem uniformInt_mem (lo hi : Int) (raw : Nat) (h : lo ≤ hi) :
    lo ≤ uniformInt lo hi raw ∧ uniformInt lo hi raw ≤ hi := by
  unfold uniformInt
  have hpos : (0 : Int) < hi - lo + 1 := by omega
  have h1 := Int.emod_nonneg (raw : Int) (ne_of_gt hpos)
  have h2 := Int.emod_lt_of_pos (raw : Int) hpos
  omega

/-! ## Unfolding lemmas for `useItem` on `int` -/

/-- An index outside `[1, inventory size]` makes `useItem` throw with the player untouched. -/
theorem useItem32_of_invalid (p : Player) (index : Int)
    (h : index < 1 ∨ index > (p.inventory.length : Int)) :
    p.useItem32 index = (.error { action := "잘못된 아이템 번호" }, p) := by
  unfold Player.useItem32
  rw [dif_pos h]

/-- An index inside `[1, inventory size]` makes `useItem` return, with the two
effects of the item in that slot applied on `int` and the slot erased. -/
theorem useItem32_of_valid (p : Player) (index : Int)
    (h : ¬ (index < 1 ∨ index > (p.inventory.length : Int)))
    (hlt : (index - 1).toNat < p.inventory.length) :
    p.useItem32 index = (.ok (),
      { name := p.name
        health :=
          if (p.inventory.get ⟨(index - 1).toNat, hlt⟩).healAmount > 0 then
            min p.maxHealth
              (wrap (p.health + (p.inventory.get ⟨(index - 1).toNat, hlt⟩).healAmount))
          else p.health
        maxHealth := p.maxHealth
        attack :=
          if (p.inventory.get ⟨(index - 1).toNat, hlt⟩).attackBonus > 0 then
            wrap (p.attack + (p.inventory.get ⟨(index - 1).toNat, hlt⟩).attackBonus)
          else p.attack
        defense := p.defense
        experience := p.experience
        level := p.level
        inventory := p.inventory.eraseIdx (index - 1).toNat
        gold := p.gold }) := by
  unfold Player.useItem32
  rw [dif_neg h]
  dsimp only
  split_ifs <;> rfl

/-- What `useItem` never touches, on `int` too: experience, level, gold and maxHealth. -/
theorem useItem32_frame (p : Player) (index : Int) :
    (p.useItem32 index).2.experience = p.experience ∧
    (p.useItem32 index).2.level = p.level ∧
    (p.useItem32 index).2.gold = p.gold ∧
    (p.useItem32 index).2.maxHealth = p.maxHealth := by
  by_cases h : index < 1 ∨ index > (p.inventory.length : Int)
  · rw [useItem32_of_invalid p index h]
    exact ⟨rfl, rfl, rfl, rfl⟩
  · rw [useItem32_of_valid p index h (by omega)]
    exact ⟨rfl, rfl, rfl, rfl⟩

/-! ## Character on `int` -/

/-- Counterexample for C1: a monster of health 40 and defense 3 hit with the
damage `INT_MIN`: `damage - defense` overflows to 2147483645 and the health is
left at 0, where `max(0, 40 - max(1, INT_MIN - 3))` is 39. -/
theorem takeDamage32_overflow :
    IsInt intMin ∧
    ((Monster.new "Monster" 40 18 3 25 13).takeDamage32 intMin).health = 0 ∧
    max 0 ((Monster.new "Monster" 40 18 3 25 13).health
      - max 1 (intMin - (Monster.new "Monster" 40 18 3 25 13).defense)) = 39 := by
  decide

/-- C1 (amended): for every damage `d` for which neither `damage - defense` nor
`health - actualDamage` overflows, `takeDamage(d)` leaves the health at
`max(0, health - actualDamage)` with `actualDamage = max(1, d - defense)`; name,
maxHealth, attack and the defense are unchanged for every `d`, overflow or not;
the same holds for the method inherited by a monster, whose rewards are
unchanged for every `d` too. -/
theorem takeDamage32_spec (c : Character) (d : Int) :
    (IsInt (d - c.defense) → IsInt (c.health - max 1 (d - c.defense)) →
      (c.takeDamage32 d).health = max 0 (c.health - max 1 (d - c.defense))) ∧
    (c.takeDamage32 d).name = c.name ∧
    (c.takeDamage32 d).maxHealth = c.maxHealth ∧
    (c.takeDamage32 d).attack = c.attack ∧
    (c.takeDamage32 d).defense = c.defense ∧
    (∀ m : Monster, m.toCharacter = c →
      (IsInt (d - m.defense) → IsInt (m.health - max 1 (d - m.defense)) →
        (m.takeDamage32 d).health = max 0 (m.health - max 1 (d - m.defense))) ∧
      (m.takeDamage32 d).expReward = m.expReward ∧
      (m.takeDamage32 d).goldReward = m.goldReward) := by
  have hh : IsInt (d - c.defense) → IsInt (c.health - max 1 (d - c.defense)) →
      (c.takeDamage32 d).health = max 0 (c.health - max 1 (d - c.defense)) := by
    intro h1 h2
    simp only [Character.takeDamage32]
    rw [wrap_of_isInt _ h1, wrap_of_isInt _ h2]
    split_ifs with h <;> simp only at h ⊢ <;> omega
  refine ⟨hh, ?_, ?_, ?_, ?_, ?_⟩
  · simp only [Character.takeDamage32]; split_ifs <;> rfl
  · simp only [Character.takeDamage32]; split_ifs <;> rfl
  · simp only [Character.takeDamage32]; split_ifs <;> rfl
  · simp only [Character.takeDamage32]; split_ifs <;> rfl
  · intro m hm
    subst hm
    exact ⟨hh, rfl, rfl⟩

/-- Witness for C1 (amended): a monster of health 40 and defense 3 hit with a
roll of 20 loses `max(1, 20 - 3) = 17`, and a roll of 100 leaves its health at 0. -/
theorem takeDamage32_spec_witness :
    ((Monster.new "Monster" 40 18 3 25 13).takeDamage32 20).health = 40 - 17 ∧
    ((Monster.new "Monster" 40 18 3 25 13).takeDamage32 100).health = 0 :=
  ⟨((((takeDamage32_spec (Monster.new "Monster" 40 18 3 25 13).toCharacter 20).2.2.2.2.2
      _ rfl).1) (by decide) (by decide)).trans (by decide),
   ((((takeDamage32_spec (Monster.new "Monster" 40 18 3 25 13).toCharacter 100).2.2.2.2.2
      _ rfl).1) (by decide) (by decide)).trans (by decide)⟩

/-- Counterexample for C8: `heal(INT_MAX)` on the fresh player, health 100 of
100: `health + amount` overflows and the health is left at -2147483549, where
`min(maxHealth, health + amount)` is 100. -/
theorem heal32_overflow :
    IsInt intMax ∧
    ((Player.new "Hero").toCharacter.heal32 intMax).health = -2147483549 ∧
    min (Player.new "Hero").maxHealth ((Player.new "Hero").health + intMax) = 100 := by
  decide

/-- C8 (amended): for every amount for which `health + amount` does not
overflow, `heal` leaves the health at `min(maxHealth, health + amount)`; name,
maxHealth, attack and defense are unchanged for every amount, overflow or not. -/
theorem heal32_spec (c : Character) (amount : Int) :
    (IsInt (c.health + amount) →
      (c.heal32 amount).health = min c.maxHealth (c.health + amount)) ∧
    (c.heal32 amount).name = c.name ∧
    (c.heal32 amount).maxHealth = c.maxHealth ∧
    (c.heal32 amount).attack = c.attack ∧
    (c.heal32 amount).defense = c.defense := by
  refine ⟨fun h => ?_, rfl, rfl, rfl, rfl⟩
  simp only [Character.heal32]
  rw [wrap_of_isInt _ h]

/-- Witness for C8 (amended): a player at 55 of 100 healed by 30 is at 85, and
healed by 70 is at 100. -/
theorem heal32_spec_witness :
    (((Player.new "Hero").takeDamage32 50).toCharacter.heal32 30).health = 85 ∧
    (((Player.new "Hero").takeDamage32 50).toCharacter.heal32 70).health = 100 :=
  ⟨((heal32_spec ((Player.new "Hero").takeDamage32 50).toCharacter 30).1 (by decide)).trans
      (by decide),
   ((heal32_spec ((Player.new "Hero").takeDamage32 50).toCharacter 70).1 (by decide)).trans
      (by decide)⟩

/-- Counterexample for C2: the fresh player (health 100 of 100) is in range,
and `heal(-200)` leaves the health at `min(100, -100) = -100`, below 0; so does
`heal(INT_MAX)`, whose sum overflows, with -2147483549. -/
theorem heal32_negative_leaves_range :
    (Player.new "Hero").toCharacter.healthInRange ∧
    ((Player.new "Hero").heal32 (-200)).health = -100 ∧
    ¬ ((Player.new "Hero").heal32 (-200)).toCharacter.healthInRange ∧
    ((Player.new "Hero").heal32 intMax).health = -2147483549 ∧
    ¬ ((Player.new "Hero").heal32 intMax).toCharacter.healthInRange := by
  refine ⟨⟨by decide, by decide⟩, by decide, ?_, by decide, ?_⟩
  · intro h
    exact absurd h.1 (by decide)
  · intro h
    exact absurd h.1 (by decide)

/-- C2 (amended): from a state with `0 <= health <= maxHealth` (maxHealth an
`int`), the health is in `[0, maxHealth]` again after `takeDamage(d)` for every
`d`, after `heal(a)` for every `a` with `0 <= health + a` and no overflow of
`health + a`, after `gainExperience(e)` for every `e` when `maxHealth + 20` does
not overflow, and after a returning `useItem(i)` for every `i` when no heal
amount of the inventory overflows `health + healAmount`; for a plain character,
a player and a monster alike. -/
theorem health_range_preserved32 (c : Character) (hc : c.healthInRange)
    (hmax : c.maxHealth ≤ intMax) :
    (∀ d, (c.takeDamage32 d).healthInRange) ∧
    (∀ a, 0 ≤ c.health + a → c.health + a ≤ intMax → (c.heal32 a).healthInRange) ∧
    (∀ p : Player, p.toCharacter = c →
      (∀ d, (p.takeDamage32 d).toCharacter.healthInRange) ∧
      (∀ a, 0 ≤ p.health + a → p.health + a ≤ intMax →
        (p.heal32 a).toCharacter.healthInRange) ∧
      (∀ e, p.maxHealth + 20 ≤ intMax → (p.gainExperience32 e).toCharacter.healthInRange) ∧
      (∀ i, (∀ item ∈ p.inventory, p.health + item.healAmount ≤ intMax) →
        (p.useItem32 i).1 = .ok () → (p.useItem32 i).2.toCharacter.healthInRange)) ∧
    (∀ m : Monster, m.toCharacter = c →
      (∀ d, (m.takeDamage32 d).toCharacter.healthInRange)) := by
  obtain ⟨h0, h1⟩ := hc
  unfold intMax at hmax
  have hdmg : ∀ d, (c.takeDamage32 d).healthInRange := by
    intro d
    have hw := wrap_isInt (d - c.defense)
    unfold IsInt intMin intMax at hw
    have hsub : IsInt (c.health - max 1 (wrap (d - c.defense))) := by
      unfold IsInt intMin intMax
      omega
    simp only [Character.healthInRange, Character.takeDamage32]
    rw [wrap_of_isInt _ hsub]
    split_ifs with h <;> simp only at h ⊢ <;> omega
  have hheal : ∀ a, 0 ≤ c.health + a → c.health + a ≤ intMax →
      (c.heal32 a).healthInRange := by
    intro a ha hb
    have hsum : IsInt (c.health + a) := by
      unfold intMax at hb
      unfold IsInt intMin intMax
      omega
    simp only [Character.healthInRange, Character.heal32]
    rw [wrap_of_isInt _ hsum]
    omega
  refine ⟨hdmg, hheal, ?_, ?_⟩
  · intro p hp
    subst hp
    refine ⟨hdmg, hheal, ?_, ?_⟩
    · intro e he
      have hsum : IsInt (p.maxHealth + 20) := by
        unfold intMax at he
        unfold IsInt intMin intMax
        omega
      simp only [Character.healthInRange, Player.gainExperience32, Player.levelUp32]
      split_ifs
      · simp only
        rw [wrap_of_isInt _ hsum]
        omega
      · simp only
        omega
    · intro i hitems hi
      by_cases hidx : i < 1 ∨ i > (p.inventory.length : Int)
      · rw [useItem32_of_invalid p i hidx] at hi
        exact absurd hi (by simp)
      · have hlt : (i - 1).toNat < p.inventory.length := by omega
        have hitem := hitems (p.inventory.get ⟨(i - 1).toNat, hlt⟩) (List.get_mem _ _ _)
        unfold intMax at hitem
        rw [useItem32_of_valid p i hidx hlt]
        simp only [Character.healthInRange]
        by_cases hpos : (p.inventory.get ⟨(i - 1).toNat, hlt⟩).healAmount > 0
        · have hsum : IsInt (p.health + (p.inventory.get ⟨(i - 1).toNat, hlt⟩).healAmount) := by
            unfold IsInt intMin intMax
            omega
          rw [if_pos hpos, wrap_of_isInt _ hsum]
          omega
        · rw [if_neg hpos]
          omega
  · intro m hm
    subst hm
    exact hdmg

/-- Witness for C2 (amended): the fresh player, health 100 of 100, stays in
range when hit by 30, healed by 40 and by -60, and given 250 experience. -/
theorem health_range_preserved32_witness :
    ((Player.new "Hero").takeDamage32 30).toCharacter.healthInRange ∧
    ((Player.new "Hero").heal32 40).toCharacter.healthInRange ∧
    ((Player.new "Hero").heal32 (-60)).toCharacter.healthInRange ∧
    ((Player.new "Hero").gainExperience32 250).toCharacter.healthInRange :=
  ⟨((health_range_preserved32 (Player.new "Hero").toCharacter ⟨by decide, by decide⟩
      (by decide)).2.2.1 (Player.new "Hero") rfl).1 30,
   ((health_range_preserved32 (Player.new "Hero").toCharacter ⟨by decide, by decide⟩
      (by decide)).2.2.1 (Player.new "Hero") rfl).2.1 40 (by decide) (by decide),
   ((health_range_preserved32 (Player.new "Hero").toCharacter ⟨by decide, by decide⟩
      (by decide)).2.2.1 (Player.new "Hero") rfl).2.1 (-60) (by decide) (by decide),
   ((health_range_preserved32 (Player.new "Hero").toCharacter ⟨by decide, by decide⟩
      (by decide)).2.2.1 (Player.new "Hero") rfl).2.2.1 250 (by decide)⟩

/-! ## Player on `int` -/

/-- Counterexample for C3: the fresh player after `gainExperience(INT_MAX)` is at
level 2 with experience `INT_MAX`; `gainExperience(1)` overflows the experience
to `INT_MIN` and the level stays 2, where `experience + 1 = 2147483648` is at
least `level * 100 = 200` and the level would be 3. -/
theorem gainExperience32_overflow :
    ((Player.new "Hero").gainExperience32 intMax).experience = intMax ∧
    ((Player.new "Hero").gainExperience32 intMax).level = 2 ∧
    (((Player.new "Hero").gainExperience32 intMax).gainExperience32 1).experience = intMin ∧
    (((Player.new "Hero").gainExperience32 intMax).gainExperience32 1).level = 2 ∧
    ((Player.new "Hero").gainExperience32 intMax).experience + 1 ≥
      ((Player.new "Hero").gainExperience32 intMax).level * 100 := by
  decide

/-- C3 (amended): when `experience + e` and `level * 100` do not overflow,
`gainExperience(e)` leaves `experience + e`; when that is at least
`level * 100` and none of `level + 1`, `maxHealth + 20`, `attack + 5`,
`defense + 2` overflows, the level goes up by exactly one, maxHealth by 20,
attack by 5, defense by 2 and health becomes the new maxHealth; when it is
below `level * 100` these five are unchanged.  Gold, inventory and name are
unchanged for every `e`, overflow or not. -/
theorem gainExperience32_spec (p : Player) (e : Int) :
    (p.gainExperience32 e).gold = p.gold ∧
    (p.gainExperience32 e).inventory = p.inventory ∧
    (p.gainExperience32 e).name = p.name ∧
    (IsInt (p.experience + e) → IsInt (p.level * 100) →
      (p.gainExperience32 e).experience = p.experience + e ∧
      (p.experience + e ≥ p.level * 100 →
        IsInt (p.level + 1) → IsInt (p.maxHealth + 20) →
        IsInt (p.attack + 5) → IsInt (p.defense + 2) →
        (p.gainExperience32 e).level = p.level + 1 ∧
        (p.gainExperience32 e).maxHealth = p.maxHealth + 20 ∧
        (p.gainExperience32 e).attack = p.attack + 5 ∧
        (p.gainExperience32 e).defense = p.defense + 2 ∧
        (p.gainExperience32 e).health = (p.gainExperience32 e).maxHealth) ∧
      (p.experience + e < p.level * 100 →
        (p.gainExperience32 e).level = p.level ∧
        (p.gainExperience32 e).maxHealth = p.maxHealth ∧
        (p.gainExperience32 e).attack = p.attack ∧
        (p.gainExperience32 e).defense = p.defense ∧
        (p.gainExperience32 e).health = p.health)) := by
  refine ⟨?_, ?_, ?_, fun he hl => ?_⟩
  · simp only [Player.gainExperience32]; split_ifs <;> rfl
  · simp only [Player.gainExperience32]; split_ifs <;> rfl
  · simp only [Player.gainExperience32]; split_ifs <;> rfl
  by_cases h : p.experience + e ≥ p.level * 100
  · have hg : p.gainExperience32 e =
        Player.levelUp32 { p with experience := p.experience + e } := by
      simp only [Player.gainExperience32]
      rw [wrap_of_isInt _ he, wrap_of_isInt _ hl, if_pos h]
    rw [hg]
    refine ⟨rfl, fun _ h1 h2 h3 h4 => ?_, fun h2 => ?_⟩
    · exact ⟨wrap_of_isInt _ h1, wrap_of_isInt _ h2, wrap_of_isInt _ h3, wrap_of_isInt _ h4,
        rfl⟩
    · omega
  · have hg : p.gainExperience32 e = { p with experience := p.experience + e } := by
      simp only [Player.gainExperience32]
      rw [wrap_of_isInt _ he, wrap_of_isInt _ hl, if_neg h]
    rw [hg]
    exact ⟨rfl, fun h2 => absurd h2 h, fun _ => ⟨rfl, rfl, rfl, rfl, rfl⟩⟩

/-- Witness for C3 (amended): a level-1 player gaining 250 experience crosses
the thresholds 100 and 200 and ends at level 2, with 120 of 120 health. -/
theorem gainExperience32_spec_witness :
    ((Player.new "Hero").gainExperience32 250).level = 2 ∧
    ((Player.new "Hero").gainExperience32 250).experience = 250 ∧
    ((Player.new "Hero").gainExperience32 250).health = 120 :=
  ⟨(((gainExperience32_spec (Player.new "Hero") 250).2.2.2 (by decide) (by decide)).2.1
      (by decide) (by decide) (by decide) (by decide) (by decide)).1.trans (by decide),
   ((gainExperience32_spec (Player.new "Hero") 250).2.2.2 (by decide) (by decide)).1.trans
      (by decide),
   by decide⟩

/-! ## MonsterFactory on `int` -/

/-- Counterexample for C7: at level 300000000 the slime's `levelMultiplier * 10`
overflows and its maxHealth is -1294967266, where `30 + 10 m` is 3000000030. -/
theorem createRandomMonster32_overflow :
    IsInt 300000000 ∧
    (MonsterFactory.createRandomMonster32 300000000 1).maxHealth = -1294967266 ∧
    30 + 10 * max 1 (300000000 : Int) = 3000000030 := by
  decide

/-- C7 (amended): with `m = max(1, L)`, the created monster has the stated
(maxHealth, attack, defense, expReward, goldReward) as long as its largest
stat fits an `int`: the slime for `m <= 214748361`, the goblin for
`m <= 143165573`, the orc for `m <= 107374178`, the dragon for
`m <= 71582783`; for every `L` its health equals its maxHealth, and every
`L <= 0` gives the monster of `L = 1`. -/
theorem createRandomMonster32_spec (L : Int) :
    (max 1 L ≤ 214748361 →
      (fun (c : Monster) => (c.maxHealth, c.attack, c.defense, c.expReward, c.goldReward))
          (MonsterFactory.createRandomMonster32 L 1) =
        (30 + 10 * max 1 L, 8 + 2 * max 1 L, 1 + max 1 L, 20 + 5 * max 1 L,
          10 + 3 * max 1 L)) ∧
    (max 1 L ≤ 143165573 →
      (fun (c : Monster) => (c.maxHealth, c.attack, c.defense, c.expReward, c.goldReward))
          (MonsterFactory.createRandomMonster32 L 2) =
        (50 + 15 * max 1 L, 12 + 3 * max 1 L, 3 + max 1 L, 35 + 8 * max 1 L,
          20 + 5 * max 1 L)) ∧
    (max 1 L ≤ 107374178 →
      (fun (c : Monster) => (c.maxHealth, c.attack, c.defense, c.expReward, c.goldReward))
          (MonsterFactory.createRandomMonster32 L 3) =
        (80 + 20 * max 1 L, 18 + 4 * max 1 L, 5 + 2 * max 1 L, 50 + 10 * max 1 L,
          35 + 7 * max 1 L)) ∧
    (max 1 L ≤ 71582783 →
      (fun (c : Monster) => (c.maxHealth, c.attack, c.defense, c.expReward, c.goldReward))
          (MonsterFactory.createRandomMonster32 L 4) =
        (150 + 30 * max 1 L, 25 + 5 * max 1 L, 8 + 3 * max 1 L, 100 + 15 * max 1 L,
          75 + 10 * max 1 L)) ∧
    (∀ t : Int, (MonsterFactory.createRandomMonster32 L t).health =
      (MonsterFactory.createRandomMonster32 L t).maxHealth) ∧
    (L ≤ 0 → ∀ t : Int,
      MonsterFactory.createRandomMonster32 L t = MonsterFactory.createRandomMonster32 1 t) := by
  have hone : (1 : Int) ≤ max 1 L := le_max_left 1 L
  have hw : ∀ (a k : Int), 0 ≤ a → 0 < k → a + k * max 1 L ≤ 2147483647 →
      wrap (a + wrap (max 1 L * k)) = a + k * max 1 L := by
    intro a k ha hk hle
    have hprod : 0 ≤ k * max 1 L := by positivity
    have h1 : IsInt (max 1 L * k) := by
      unfold IsInt intMin intMax
      rw [mul_comm]
      omega
    rw [wrap_of_isInt _ h1]
    have h2 : IsInt (a + max 1 L * k) := by
      unfold IsInt intMin intMax
      rw [mul_comm]
      omega
    rw [wrap_of_isInt _ h2, mul_comm]
  have hw1 : ∀ (a : Int), 0 ≤ a → a + max 1 L ≤ 2147483647 →
      wrap (a + max 1 L) = a + max 1 L := by
    intro a ha hle
    apply wrap_of_isInt
    unfold IsInt intMin intMax
    omega
  refine ⟨?_, ?_, ?_, ?_, ?_, ?_⟩
  · intro hm
    simp only [MonsterFactory.createRandomMonster32, Monster.new, Character.new, if_true]
    rw [hw 30 10 (by norm_num) (by norm_num) (by omega),
      hw 8 2 (by norm_num) (by norm_num) (by omega), hw1 1 (by norm_num) (by omega),
      hw 20 5 (by norm_num) (by norm_num) (by omega),
      hw 10 3 (by norm_num) (by norm_num) (by omega)]
  · intro hm
    simp only [MonsterFactory.createRandomMonster32, Monster.new, Character.new]
    rw [hw 50 15 (by norm_num) (by norm_num) (by omega),
      hw 12 3 (by norm_num) (by norm_num) (by omega), hw1 3 (by norm_num) (by omega),
      hw 35 8 (by norm_num) (by norm_num) (by omega),
      hw 20 5 (by norm_num) (by norm_num) (by omega)]
    rfl
  · intro hm
    simp only [MonsterFactory.createRandomMonster32, Monster.new, Character.new]
    rw [hw 80 20 (by norm_num) (by norm_num) (by omega),
      hw 18 4 (by norm_num) (by norm_num) (by omega),
      hw 5 2 (by norm_num) (by norm_num) (by omega),
      hw 50 10 (by norm_num) (by norm_num) (by omega),
      hw 35 7 (by norm_num) (by norm_num) (by omega)]
    rfl
  · intro hm
    simp only [MonsterFactory.createRandomMonster32, Monster.new, Character.new]
    rw [hw 150 30 (by norm_num) (by norm_num) (by omega),
      hw 25 5 (by norm_num) (by norm_num) (by omega),
      hw 8 3 (by norm_num) (by norm_num) (by omega),
      hw 100 15 (by norm_num) (by norm_num) (by omega),
      hw 75 10 (by norm_num) (by norm_num) (by omega)]
    rfl
  · intro t
    simp only [MonsterFactory.createRandomMonster32]
    split_ifs <;> rfl
  · intro hL t
    have hmax : max 1 L = 1 := max_eq_left (by omega)
    simp only [MonsterFactory.createRandomMonster32, hmax]
    rfl

/-- Witness for C7 (amended): at level 3 the dragon has 240 health, attack 40,
defense 17, and rewards 145 and 105; at level -7 the slime is the slime of
level 1. -/
theorem createRandomMonster32_spec_witness :
    (fun (c : Monster) => (c.maxHealth, c.attack, c.defense, c.expReward, c.goldReward))
        (MonsterFactory.createRandomMonster32 3 4) = (240, 40, 17, 145, 105) ∧
    MonsterFactory.createRandomMonster32 (-7) 1 = MonsterFactory.createRandomMonster32 1 1 :=
  ⟨((createRandomMonster32_spec 3).2.2.2.1 (by decide)).trans (by decide),
   (createRandomMonster32_spec (-7)).2.2.2.2.2 (by decide) 1⟩

/-! ## The battle loop on `int`: what holds at its exits -/

/-- The maxHealth is not touched by `takeDamage` on `int`. -/
theorem takeDamage32_maxHealth (c : Character) (d : Int) :
    (c.takeDamage32 d).maxHealth = c.maxHealth := by
  simp only [Character.takeDamage32]
  split_ifs <;> rfl

/-- The health left by `takeDamage` on `int` is never negative. -/
theorem takeDamage32_health_nonneg (c : Character) (d : Int) :
    0 ≤ (c.takeDamage32 d).health := by
  simp only [Character.takeDamage32]
  split_ifs with h <;> simp only at h ⊢ <;> omega

open BattleSystem in
/-- A property of the two combatants that survives a hit on the monster, a hit
on the player and a call of `useItem` holds at every exit of the battle loop on
`int` when it holds at its start. -/
theorem battleLoop32_preserves (rng : Nat → Nat) (Q : Player → Monster → Prop)
    (hatk : ∀ p m d, Q p m → Q p (m.takeDamage32 d))
    (hdef : ∀ p m d, Q p m → Q (p.takeDamage32 d) m)
    (huse : ∀ p m i, Q p m → Q (p.useItem32 i).2 m)
    (p : Player) (m : Monster) (pos : Nat) (cin : List Int) (h : Q p m) :
    (battleLoop32 rng p m pos cin).Sat Q := by
  induction p, m, pos, cin using battleLoop32.induct rng with
  | case1 p m pos hal => rw [battleLoop32.eq_def]; simp [hal, LoopExit.Sat]
  | case2 p m pos hal cin2 damage m1 hdead =>
    rw [battleLoop32.eq_def]
    simp only [hal, if_true]
    rw [if_pos hdead]
    exact hatk _ _ _ h
  | case3 p m pos hal cin2 damage m1 hlive ih =>
    rw [battleLoop32.eq_def]
    simp only [hal, if_true]
    rw [if_neg hlive]
    exact ih (hdef _ _ _ (hatk _ _ _ h))
  | case4 p m pos hal cin2 hemp _ ih =>
    rw [battleLoop32.eq_def]
    simp only [hal, if_true, hemp]
    exact ih h
  | case5 p m pos hal hne _ =>
    rw [battleLoop32.eq_def]
    simp [hal, hne, LoopExit.Sat]
  | case6 p m pos hal hne i cin2 a p1 huse1 _ ih =>
    rw [battleLoop32.eq_def]
    simp only [hal, if_true, hne, if_false, huse1]
    have := huse p m i h
    rw [huse1] at this
    exact ih this
  | case7 p m pos hal hne i cin2 p1 huse1 hdead _ =>
    rw [battleLoop32.eq_def]
    simp only [hal, if_true, hne, if_false, huse1]
    rw [if_pos hdead]
    have := huse p m i h
    rw [huse1] at this
    exact this
  | case8 p m pos hal hne i cin2 p1 huse1 hlive _ ih =>
    rw [battleLoop32.eq_def]
    simp only [hal, if_true, hne, if_false, huse1]
    rw [if_neg hlive]
    have := huse p m i h
    rw [huse1] at this
    exact ih (hdef _ _ _ this)
  | case9 p m pos hal cin2 _ _ =>
    rw [battleLoop32.eq_def]
    simp only [hal, if_true]
    exact h
  | case10 p m pos hal c cin2 h1 h2 h3 ih =>
    rw [battleLoop32.eq_def]
    simp only [hal, if_true, h1, h2, h3, if_false]
    exact ih h
  | case11 p m pos cin hal =>
    rw [battleLoop32.eq_def]
    simp only [hal]
    exact h

open BattleSystem in
/-- When the loop on `int` is left without fleeing, the player or the monster is dead. -/
theorem battleLoop32_done_dead (rng : Nat → Nat) (p : Player) (m : Monster) (pos : Nat)
    (cin : List Int) :
    ∀ p1 m1 cin1 pos1, battleLoop32 rng p m pos cin = .done p1 m1 cin1 pos1 →
      (p1.isAlive && m1.isAlive) = false := by
  induction p, m, pos, cin using battleLoop32.induct rng with
  | case1 p m pos hal => rw [battleLoop32.eq_def]; simp [hal]
  | case2 p m pos hal cin2 damage m1 hdead =>
    rw [battleLoop32.eq_def]
    simp only [hal, if_true]
    rw [if_pos hdead]
    intro p1 m2 cin1 pos1 heq
    injection heq with e1 e2 e3 e4
    subst e1 e2
    simp only [Bool.and_eq_false_iff]
    exact Or.inr (by simpa using hdead)
  | case3 p m pos hal cin2 damage m1 hlive ih =>
    rw [battleLoop32.eq_def]
    simp only [hal, if_true]
    rw [if_neg hlive]
    exact ih
  | case4 p m pos hal cin2 hemp _ ih =>
    rw [battleLoop32.eq_def]
    simp only [hal, if_true, hemp]
    exact ih
  | case5 p m pos hal hne _ =>
    rw [battleLoop32.eq_def]
    simp [hal, hne]
  | case6 p m pos hal hne i cin2 a p1 huse1 _ ih =>
    rw [battleLoop32.eq_def]
    simp only [hal, if_true, hne, if_false, huse1]
    exact ih
  | case7 p m pos hal hne i cin2 p1 huse1 hdead _ =>
    rw [battleLoop32.eq_def]
    simp only [hal, if_true, hne, if_false, huse1]
    rw [if_pos hdead]
    intro p2 m2 cin1 pos1 heq
    injection heq with e1 e2 e3 e4
    subst e1 e2
    simp only [Bool.and_eq_false_iff]
    exact Or.inr (by simpa using hdead)
  | case8 p m pos hal hne i cin2 p1 huse1 hlive _ ih =>
    rw [battleLoop32.eq_def]
    simp only [hal, if_true, hne, if_false, huse1]
    rw [if_neg hlive]
    exact ih
  | case9 p m pos hal cin2 _ _ =>
    rw [battleLoop32.eq_def]
    simp [hal]
  | case10 p m pos hal c cin2 h1 h2 h3 ih =>
    rw [battleLoop32.eq_def]
    simp only [hal, if_true, h1, h2, h3, if_false]
    exact ih
  | case11 p m pos cin hal =>
    rw [battleLoop32.eq_def]
    simp only [hal]
    intro p2 m2 cin1 pos1 heq
    injection heq with e1 e2 e3 e4
    subst e1 e2
    simpa using hal

/-! ## BattleSystem on `int` -/

open BattleSystem in
/-- Counterexample for C9: the fresh player after `gainExperience(INT_MAX)`
(level 2, attack 25, defense 7, experience `INT_MAX`) meets the level-1 slime
and wins with two attacks of 25; the battle returns `true` with the experience
at -2147483624, where the experience before it plus the slime's reward of 25 is
2147483672. -/
theorem battle32_victory_overflow :
    battle32 (fun _ => 5) ((Player.new "Hero").gainExperience32 intMax)
        (MonsterFactory.createRandomMonster32 1 1) 0 [1, 1] =
      .returned true
        ({ name := "Hero", health := 115, maxHealth := 120, attack := 25, defense := 7,
           experience := -2147483624, level := 2,
           inventory := [{ name := "체력 포션", healAmount := 30, attackBonus := 0 },
                         { name := "힘의 물약", healAmount := 0, attackBonus := 10 }],
           gold := 63 } : Player)
        ({ name := "슬라임", health := 0, maxHealth := 40, attack := 10, defense := 2,
           expReward := 25, goldReward := 13 } : Monster)
        [] 3 ∧
    ((Player.new "Hero").gainExperience32 intMax).isAlive = true ∧
    (MonsterFactory.createRandomMonster32 1 1).isAlive = true ∧
    ((Player.new "Hero").gainExperience32 intMax).experience
      + (MonsterFactory.createRandomMonster32 1 1).expReward = 2147483672 := by
  decide

open BattleSystem in
/-- C9 (amended): when a battle returns `true`, having started with the monster
alive and with a player whose maxHealth is positive, and when none of
`experience + expReward`, `gold + goldReward` and `maxHealth + 20` overflows,
the monster's health is 0, the player's health is positive, and the player's
experience and gold have grown by exactly the monster's `expReward` and
`goldReward`. -/
theorem battle32_victory (rng : Nat → Nat) (p : Player) (m : Monster) (pos : Nat)
    (cin : List Int) (p1 : Player) (m1 : Monster) (cin1 : List Int) (pos1 : Nat)
    (hm : m.isAlive = true) (hmax : 0 < p.maxHealth) (hmax2 : p.maxHealth + 20 ≤ intMax)
    (hexp : IsInt (p.experience + m.expReward)) (hgold : IsInt (p.gold + m.goldReward))
    (h : battle32 rng p m pos cin = .returned true p1 m1 cin1 pos1) :
    m1.health = 0 ∧ 0 < p1.health ∧
    p1.experience = p.experience + m.expReward ∧
    p1.gold = p.gold + m.goldReward := by
  have hQ := battleLoop32_preserves rng
    (fun q n => q.experience = p.experience ∧ q.gold = p.gold ∧ q.maxHealth = p.maxHealth ∧
      n.expReward = m.expReward ∧ n.goldReward = m.goldReward ∧ 0 ≤ n.health)
    (fun q n d hq => ⟨hq.1, hq.2.1, hq.2.2.1, hq.2.2.2.1, hq.2.2.2.2.1,
      takeDamage32_health_nonneg n.toCharacter d⟩)
    (fun q n d hq => ⟨hq.1, hq.2.1, (takeDamage32_maxHealth q.toCharacter d).trans hq.2.2.1,
      hq.2.2.2⟩)
    (fun q n i hq => ⟨(useItem32_frame q i).1.trans hq.1, (useItem32_frame q i).2.2.1.trans hq.2.1,
      (useItem32_frame q i).2.2.2.trans hq.2.2.1, hq.2.2.2⟩)
    p m pos cin
    ⟨rfl, rfl, rfl, rfl, rfl, by
      simp only [Monster.isAlive, Character.isAlive, decide_eq_true_eq] at hm; omega⟩
  have hD := battleLoop32_done_dead rng p m pos cin
  unfold battle32 at h
  cases hloop : battleLoop32 rng p m pos cin with
  | done q n c k =>
    rw [hloop] at h hQ
    obtain ⟨hexpq, hgoldq, hmaxq, hrew, hgrew, hn0⟩ := hQ
    have hdead := hD q n c k hloop
    simp only [battleResult32] at h
    split_ifs at h with hal
    injection h with _ e1 e2 e3 e4
    subst e1 e2
    simp only [hal, Bool.true_and] at hdead
    simp only [Monster.isAlive, Character.isAlive, decide_eq_false_iff_not] at hdead
    simp only [Player.isAlive, Character.isAlive, decide_eq_true_eq] at hal
    have hmaxint : IsInt (q.maxHealth + 20) := by
      unfold intMax at hmax2
      unfold IsInt intMin intMax
      omega
    have hexpint : IsInt (q.experience + n.expReward) := by
      rw [hexpq, hrew]
      exact hexp
    have hgoldint : IsInt (q.gold + n.goldReward) := by
      rw [hgoldq, hgrew]
      exact hgold
    refine ⟨by omega, ?_, ?_, ?_⟩
    · simp only [Player.gainGold32, Player.gainExperience32, Player.levelUp32]
      split_ifs
      · simp only
        rw [wrap_of_isInt _ hmaxint]
        omega
      · simp only
        omega
    · have : ((q.gainExperience32 n.expReward).gainGold32 n.goldReward).experience =
          wrap (q.experience + n.expReward) := by
        simp only [Player.gainGold32, Player.gainExperience32, Player.levelUp32]
        split_ifs <;> rfl
      rw [this, wrap_of_isInt _ hexpint, hexpq, hrew]
    · have : ((q.gainExperience32 n.expReward).gainGold32 n.goldReward).gold =
          wrap (q.gold + n.goldReward) := by
        simp only [Player.gainGold32, Player.gainExperience32, Player.levelUp32]
        split_ifs <;> rfl
      rw [this, wrap_of_isInt _ hgoldint, hgoldq, hgrew]
  | fled q n c k =>
    rw [hloop] at h
    simp [battleResult32] at h
  | noReturn =>
    rw [hloop] at h
    simp [battleResult32] at h

open BattleSystem in
/-- Witness for C9 (amended): the fresh player meets the level-1 slime (health
40, attack 10, defense 2), types an invalid choice 7, drinks the power potion
(item 2), is hit twice for 5 and kills the slime with two attacks of 28. -/
theorem battle32_victory_witness :
    battle32 (fun n => if n % 2 = 0 then 3 else 5) (Player.new "Hero")
        (MonsterFactory.createRandomMonster32 1 1) 0 [7, 2, 2, 1, 1] =
      .returned true
        ({ name := "Hero", health := 90, maxHealth := 100, attack := 30, defense := 5,
           experience := 25, level := 1,
           inventory := [{ name := "체력 포션", healAmount := 30, attackBonus := 0 }],
           gold := 63 } : Player)
        ({ name := "슬라임", health := 0, maxHealth := 40, attack := 10, defense := 2,
           expReward := 25, goldReward := 13 } : Monster)
        [] 4 ∧
    (0 : Int) = 0 ∧ (0 : Int) < 90 ∧ (25 : Int) = 0 + 25 ∧ (63 : Int) = 50 + 13 :=
  ⟨by decide,
   battle32_victory (fun n => if n % 2 = 0 then 3 else 5) (Player.new "Hero")
     (MonsterFactory.createRandomMonster32 1 1) 0 [7, 2, 2, 1, 1]
     ({ name := "Hero", health := 90, maxHealth := 100, attack := 30, defense := 5,
        experience := 25, level := 1,
        inventory := [{ name := "체력 포션", healAmount := 30, attackBonus := 0 }],
        gold := 63 } : Player)
     ({ name := "슬라임", health := 0, maxHealth := 40, attack := 10, defense := 2,
        expReward := 25, goldReward := 13 } : Monster)
     [] 4 (by decide) (by decide) (by decide) (by decide) (by decide) (by decide)⟩

/-! ## Game on `int`: the gold -/

open BattleSystem in
/-- The gold after a battle on `int`: the reduced sum of the gold before it and
the monster's reward when the battle returns `true`, and the gold before it
otherwise. -/
theorem battle32_gold (rng : Nat → Nat) (p : Player) (m : Monster) (pos : Nat)
    (cin : List Int) (p1 : Player) (m1 : Monster) (cin1 : List Int) (pos1 : Nat) :
    (battle32 rng p m pos cin = .returned true p1 m1 cin1 pos1 →
      p1.gold = wrap (p.gold + m.goldReward)) ∧
    (battle32 rng p m pos cin = .returned false p1 m1 cin1 pos1 → p1.gold = p.gold) ∧
    (battle32 rng p m pos cin = .gameOver p1 m1 cin1 pos1 → p1.gold = p.gold) := by
  have hQ := battleLoop32_preserves rng
    (fun q n => q.gold = p.gold ∧ n.goldReward = m.goldReward)
    (fun q n d hq => hq)
    (fun q n d hq => hq)
    (fun q n i hq => ⟨(useItem32_frame q i).2.2.1.trans hq.1, hq.2⟩)
    p m pos cin ⟨rfl, rfl⟩
  unfold battle32
  cases hloop : battleLoop32 rng p m pos cin with
  | done q n c k =>
    rw [hloop] at hQ
    simp only [battleResult32]
    by_cases hal : q.isAlive = true
    · simp only [hal, if_true]
      refine ⟨fun h => ?_, fun h => ?_, fun h => ?_⟩
      · injection h with _ e1 e2 e3 e4
        subst e1
        simp only [Player.gainGold32, Player.gainExperience32, Player.levelUp32]
        split_ifs <;> simp only <;> rw [hQ.1, hQ.2]
      · exact absurd h (by simp)
      · exact absurd h (by simp)
    · simp only [hal]
      refine ⟨fun h => ?_, fun h => ?_, fun h => ?_⟩
      · exact absurd h (by simp)
      · exact absurd h (by simp)
      · simp only [Bool.false_eq_true, if_false] at h
        injection h with e1 e2 e3 e4
        subst e1
        exact hQ.1
  | fled q n c k =>
    rw [hloop] at hQ
    simp only [battleResult32]
    refine ⟨fun h => ?_, fun h => ?_, fun h => ?_⟩
    · exact absurd h (by simp)
    · injection h with _ e1 e2 e3 e4
      subst e1
      exact hQ.1
    · exact absurd h (by simp)
  | noReturn =>
    simp only [battleResult32]
    exact ⟨fun h => absurd h (by simp), fun h => absurd h (by simp),
      fun h => absurd h (by simp)⟩

/-- Below the level where its stats overflow, every monster of the factory
carries a gold reward between 1 and the dragon's `75 + 10 m`. -/
theorem createRandomMonster32_goldReward (playerLevel monsterType : Int)
    (h : max 1 playerLevel ≤ 71582783) :
    0 < (MonsterFactory.createRandomMonster32 playerLevel monsterType).goldReward ∧
    (MonsterFactory.createRandomMonster32 playerLevel monsterType).goldReward
      ≤ 75 + 10 * max 1 playerLevel := by
  have hone : (1 : Int) ≤ max 1 playerLevel := le_max_left 1 playerLevel
  have hw : ∀ (a k : Int), 0 ≤ a → a ≤ 75 → 0 < k → k ≤ 10 →
      wrap (a + wrap (max 1 playerLevel * k)) = a + k * max 1 playerLevel ∧
      0 < a + k * max 1 playerLevel ∧
      a + k * max 1 playerLevel ≤ 75 + 10 * max 1 playerLevel := by
    intro a k ha ha2 hk hk2
    have hprod : 0 < k * max 1 playerLevel := by positivity
    have hle : k * max 1 playerLevel ≤ 10 * max 1 playerLevel :=
      mul_le_mul_of_nonneg_right hk2 (by omega)
    have h1 : IsInt (max 1 playerLevel * k) := by
      unfold IsInt intMin intMax
      rw [mul_comm]
      omega
    have h2 : IsInt (a + max 1 playerLevel * k) := by
      unfold IsInt intMin intMax
      rw [mul_comm]
      omega
    rw [wrap_of_isInt _ h1, wrap_of_isInt _ h2, mul_comm]
    exact ⟨rfl, by omega, by omega⟩
  simp only [MonsterFactory.createRandomMonster32, Monster.new]
  split_ifs
  · rw [(hw 10 3 (by norm_num) (by norm_num) (by norm_num) (by norm_num)).1]
    exact (hw 10 3 (by norm_num) (by norm_num) (by norm_num) (by norm_num)).2
  · rw [(hw 20 5 (by norm_num) (by norm_num) (by norm_num) (by norm_num)).1]
    exact (hw 20 5 (by norm_num) (by norm_num) (by norm_num) (by norm_num)).2
  · rw [(hw 35 7 (by norm_num) (by norm_num) (by norm_num) (by norm_num)).1]
    exact (hw 35 7 (by norm_num) (by norm_num) (by norm_num) (by norm_num)).2
  · rw [(hw 75 10 (by norm_num) (by norm_num) (by norm_num) (by norm_num)).1]
    exact (hw 75 10 (by norm_num) (by norm_num) (by norm_num) (by norm_num)).2
  · exact ⟨by decide, show (15 : Int) ≤ 75 + 10 * max 1 playerLevel by omega⟩

/-- The function `rest` on `int` touches only the player's health. -/
theorem rest32_frame (g : Game) :
    g.rest32.dungeon_level = g.dungeon_level ∧ g.rest32.player.gold = g.player.gold ∧
    g.rest32.running = g.running := by
  unfold Game.rest32
  dsimp only
  split_ifs <;> exact ⟨rfl, rfl, rfl⟩

/-- What `fight` on `int` leaves while the gold and the largest reward of the
level fit an `int`: the dungeon level is the old one or one more, and the gold
is the old gold plus at most that reward. -/
theorem fight32_frame (rng : Nat → Nat) (g : Game) (pos : Nat) (cin : List Int)
    (g1 : Game) (cin1 : List Int) (pos1 : Nat)
    (hlevel0 : intMin ≤ g.dungeon_level) (hlevel : g.dungeon_level ≤ 71582783)
    (hlow : intMin ≤ g.player.gold)
    (hgold : g.player.gold + (75 + 10 * max 1 g.dungeon_level) ≤ intMax)
    (h : Game.fight32 rng g pos cin = .returned g1 cin1 pos1 ∨
      Game.fight32 rng g pos cin = .gameOver g1 cin1 pos1) :
    (g1.dungeon_level = g.dungeon_level ∨ g1.dungeon_level = g.dungeon_level + 1) ∧
    g.player.gold ≤ g1.player.gold ∧
    g1.player.gold ≤ g.player.gold + (75 + 10 * max 1 g.dungeon_level) := by
  have hone : (1 : Int) ≤ max 1 g.dungeon_level := le_max_left 1 g.dungeon_level
  have hrew := createRandomMonster32_goldReward g.dungeon_level (uniformInt 1 4 (rng pos))
    (by omega)
  unfold intMin at hlow hlevel0
  unfold intMax at hgold
  have hwgold : wrap (g.player.gold
      + (MonsterFactory.createRandomMonster32 g.dungeon_level
          (uniformInt 1 4 (rng pos))).goldReward) =
      g.player.gold + (MonsterFactory.createRandomMonster32 g.dungeon_level
          (uniformInt 1 4 (rng pos))).goldReward := by
    apply wrap_of_isInt
    unfold IsInt intMin intMax
    omega
  have hwlevel : wrap (g.dungeon_level + 1) = g.dungeon_level + 1 := by
    unfold wrap
    omega
  unfold Game.fight32 at h
  cases hb : BattleSystem.battle32 rng g.player
      (MonsterFactory.createRandomMonster32 g.dungeon_level (uniformInt 1 4 (rng pos)))
      (pos + 1) cin with
  | returned b q n c k =>
    have hg := battle32_gold rng g.player
      (MonsterFactory.createRandomMonster32 g.dungeon_level (uniformInt 1 4 (rng pos)))
      (pos + 1) cin q n c k
    cases b with
    | true =>
      have hq := hg.1 hb
      rw [hwgold] at hq
      simp only [hb] at h
      rcases h with h | h
      · injection h with e1 e2 e3
        subst e1
        refine ⟨Or.inr hwlevel, ?_, ?_⟩ <;> simp only <;> omega
      · exact absurd h (by simp)
    | false =>
      have hq := hg.2.1 hb
      simp only [hb] at h
      rcases h with h | h
      · injection h with e1 e2 e3
        subst e1
        refine ⟨Or.inl rfl, ?_, ?_⟩ <;> simp only <;> omega
      · exact absurd h (by simp)
  | gameOver q n c k =>
    have hq := (battle32_gold rng g.player
      (MonsterFactory.createRandomMonster32 g.dungeon_level (uniformInt 1 4 (rng pos)))
      (pos + 1) cin q n c k).2.2 hb
    simp only [hb] at h
    rcases h with h | h
    · exact absurd h (by simp)
    · injection h with e1 e2 e3
      subst e1
      refine ⟨Or.inl rfl, ?_, ?_⟩ <;> simp only <;> omega
  | noReturn =>
    simp only [hb] at h
    rcases h with h | h
    · exact absurd h (by simp)
    · exact absurd h (by simp)

/-- What one call of `handleInput` on `int` leaves while the gold and the
largest reward of the level fit an `int`. -/
theorem handleInput32_frame (rng : Nat → Nat) (g : Game) (pos : Nat) (cin : List Int)
    (g1 : Game) (cin1 : List Int) (pos1 : Nat)
    (hlevel0 : intMin ≤ g.dungeon_level) (hlevel : g.dungeon_level ≤ 71582783)
    (hlow : intMin ≤ g.player.gold)
    (hgold : g.player.gold + (75 + 10 * max 1 g.dungeon_level) ≤ intMax)
    (h : Game.handleInput32 rng g pos cin = .returned g1 cin1 pos1 ∨
      Game.handleInput32 rng g pos cin = .gameOver g1 cin1 pos1) :
    (g1.dungeon_level = g.dungeon_level ∨ g1.dungeon_level = g.dungeon_level + 1) ∧
    g.player.gold ≤ g1.player.gold ∧
    g1.player.gold ≤ g.player.gold + (75 + 10 * max 1 g.dungeon_level) := by
  have hone : (1 : Int) ≤ max 1 g.dungeon_level := le_max_left 1 g.dungeon_level
  have hsame : (g.dungeon_level = g.dungeon_level ∨ g.dungeon_level = g.dungeon_level + 1) ∧
      g.player.gold ≤ g.player.gold ∧
      g.player.gold ≤ g.player.gold + (75 + 10 * max 1 g.dungeon_level) :=
    ⟨Or.inl rfl, le_refl _, by omega⟩
  cases cin with
  | nil =>
    simp only [Game.handleInput32] at h
    rcases h with h | h
    · injection h with e1 e2 e3
      subst e1
      exact hsame
    · exact absurd h (by simp)
  | cons c cin2 =>
    simp only [Game.handleInput32] at h
    by_cases h1 : c = 1
    · simp only [h1, if_true] at h
      exact fight32_frame rng g pos cin2 g1 cin1 pos1 hlevel0 hlevel hlow hgold h
    · simp only [h1, if_false] at h
      have hr := rest32_frame g
      split_ifs at h <;> rcases h with h | h <;> cases h <;>
        first
        | exact hsame
        | (rw [hr.1, hr.2.1]; exact hsame)

/-- The closed form of `goldBound`. -/
theorem goldBound_eq (k : Nat) : goldBound k = 50 + 80 * (k : Int) + 5 * (k : Int) * (k : Int) := by
  induction k with
  | zero => simp [goldBound]
  | succ k ih =>
    simp only [goldBound, ih]
    push_cast
    ring

/-- The bound grows with the number of iterations. -/
theorem goldBound_mono (a b : Nat) (h : a ≤ b) : goldBound a ≤ goldBound b := by
  induction h with
  | refl => exact le_refl _
  | step _ ih =>
    simp only [goldBound]
    omega

/-- Through 20000 iterations the bound fits an `int`. -/
theorem goldBound_le (k : Nat) (h : k ≤ 20000) : goldBound k ≤ 2001600050 := by
  have h1 := goldBound_mono k 20000 h
  have h2 : goldBound 20000 = 2001600050 := by
    rw [goldBound_eq]
    norm_num
  omega

/-- The first `n` iterations of the loop of `run`, started after at most `k`
others and ending within 20000, keep the dungeon level between 1 and the
number of iterations plus 1 and the gold between 50 and `goldBound`. -/
theorem iterate32_gold (rng : Nat → Nat) (n : Nat) :
    ∀ (k : Nat) (g : Game) (pos : Nat) (cin : List Int) (g1 : Game) (cin1 : List Int)
      (pos1 : Nat), k + n ≤ 20000 →
      1 ≤ g.dungeon_level → g.dungeon_level ≤ (k : Int) + 1 →
      50 ≤ g.player.gold → g.player.gold ≤ goldBound k →
      (Game.iterate32 rng n g pos cin = .returned g1 cin1 pos1 ∨
        Game.iterate32 rng n g pos cin = .gameOver g1 cin1 pos1) →
      1 ≤ g1.dungeon_level ∧ g1.dungeon_level ≤ ((k + n : Nat) : Int) + 1 ∧
      50 ≤ g1.player.gold ∧ g1.player.gold ≤ goldBound (k + n) := by
  induction n with
  | zero =>
    intro k g pos cin g1 cin1 pos1 _ hl1 hl2 hg1 hg2 h
    simp only [Game.iterate32] at h
    rcases h with h | h
    · injection h with e1 e2 e3
      subst e1
      exact ⟨hl1, hl2, hg1, hg2⟩
    · exact absurd h (by simp)
  | succ n ih =>
    intro k g pos cin g1 cin1 pos1 hk hl1 hl2 hg1 hg2 h
    have hmono : goldBound k ≤ goldBound (k + (n + 1)) := goldBound_mono _ _ (by omega)
    have hstay : 1 ≤ g.dungeon_level ∧ g.dungeon_level ≤ ((k + (n + 1) : Nat) : Int) + 1 ∧
        50 ≤ g.player.gold ∧ g.player.gold ≤ goldBound (k + (n + 1)) :=
      ⟨hl1, by push_cast; omega, hg1, le_trans hg2 hmono⟩
    simp only [Game.iterate32] at h
    by_cases hloop : g.loopCondition = true
    · simp only [hloop, if_true] at h
      have hb1 := goldBound_le (k + 1) (by omega)
      have hmax : max 1 g.dungeon_level = g.dungeon_level := max_eq_right hl1
      have hnext : goldBound (k + 1) = goldBound k + (75 + 10 * ((k : Int) + 1)) := rfl
      have hframe : ∀ g2 cin2 pos2,
          (Game.handleInput32 rng g pos cin = .returned g2 cin2 pos2 ∨
            Game.handleInput32 rng g pos cin = .gameOver g2 cin2 pos2) →
          1 ≤ g2.dungeon_level ∧ g2.dungeon_level ≤ ((k + 1 : Nat) : Int) + 1 ∧
          50 ≤ g2.player.gold ∧ g2.player.gold ≤ goldBound (k + 1) := by
        intro g2 cin2 pos2 h2
        have hf := handleInput32_frame rng g pos cin g2 cin2 pos2
          (by unfold intMin; omega) (by omega) (by unfold intMin; omega)
          (by unfold intMax; rw [hmax]; omega) h2
        rw [hmax] at hf
        refine ⟨?_, ?_, ?_, ?_⟩
        · rcases hf.1 with e | e <;> omega
        · push_cast
          rcases hf.1 with e | e <;> omega
        · omega
        · omega
      cases hh : Game.handleInput32 rng g pos cin with
      | returned g2 cin2 pos2 =>
        have hinv := hframe g2 cin2 pos2 (Or.inl hh)
        simp only [hh] at h
        have := ih (k + 1) g2 pos2 cin2 g1 cin1 pos1 (by omega) hinv.1 hinv.2.1 hinv.2.2.1
          hinv.2.2.2 h
        have he : k + 1 + n = k + (n + 1) := by omega
        rw [he] at this
        exact this
      | gameOver g2 cin2 pos2 =>
        have hinv := hframe g2 cin2 pos2 (Or.inr hh)
        simp only [hh] at h
        rcases h with h | h
        · exact absurd h (by simp)
        · injection h with e1 e2 e3
          subst e1
          have hm2 : goldBound (k + 1) ≤ goldBound (k + (n + 1)) :=
            goldBound_mono _ _ (by omega)
          refine ⟨hinv.1, ?_, hinv.2.2.1, le_trans hinv.2.2.2 hm2⟩
          have := hinv.2.1
          push_cast at this ⊢
          omega
      | noReturn =>
        simp only [hh] at h
        rcases h with h | h
        · exact absurd h (by simp)
        · exact absurd h (by simp)
    · simp only [hloop] at h
      rcases h with h | h
      · simp only [Bool.false_eq_true, if_false] at h
        injection h with e1 e2 e3
        subst e1
        exact hstay
      · simp at h

/-- C18 (amended): while the gold fits an `int` it never decreases: a call of
`handleInput` (a fight with a monster of the factory and the item uses in it,
a rest, any other menu choice) from a state whose dungeon level is at most
71582783 and whose gold plus the largest reward of that level,
`75 + 10 max(1, dungeonLevel)`, is at most `INT_MAX`, does not lower the gold;
and in every game state reached from the start of the game within 20000
iterations of the loop of `run` the gold is at least 50, so `rest` does not find
it below 20, and `rest` leaves it as it is. -/
theorem gold_never_decreases32 :
    (∀ (rng : Nat → Nat) (g : Game) (pos : Nat) (cin : List Int) (g1 : Game)
        (cin1 : List Int) (pos1 : Nat),
      IsInt g.dungeon_level → g.dungeon_level ≤ 71582783 → IsInt g.player.gold →
      g.player.gold + (75 + 10 * max 1 g.dungeon_level) ≤ intMax →
      (Game.handleInput32 rng g pos cin = .returned g1 cin1 pos1 ∨
        Game.handleInput32 rng g pos cin = .gameOver g1 cin1 pos1) →
      g.player.gold ≤ g1.player.gold) ∧
    (∀ (n : Nat) (g : Game), n ≤ 20000 → Game.ReachedAfter32 n g →
      50 ≤ g.player.gold ∧ ¬ g.player.gold < 20 ∧ g.rest32.player.gold = g.player.gold) := by
  refine ⟨?_, ?_⟩
  · intro rng g pos cin g1 cin1 pos1 hl hl2 hg hg2 h
    exact (handleInput32_frame rng g pos cin g1 cin1 pos1 hl.1 hl2 hg.1 hg2 h).2.1
  · rintro n g hn ⟨playerName, rng, cin, cin1, pos1, h⟩
    have hinv := iterate32_gold rng n 0 (Game.start playerName) 0 cin g cin1 pos1 (by omega)
      (le_refl (1 : Int)) (le_refl (1 : Int)) (le_refl (50 : Int)) (le_refl (50 : Int)) h
    refine ⟨hinv.2.2.1, ?_, (rest32_frame g).2.1⟩
    have := hinv.2.2.1
    omega

/-- Witness for C18 (amended): the first two iterations, a fight won against the
level-1 slime and a rest, leave `50 + 13 = 63` gold. -/
theorem gold_never_decreases32_witness :
    ∃ g : Game, Game.ReachedAfter32 2 g ∧ g.player.gold = 63 ∧ 50 ≤ g.player.gold :=
  ⟨{ player := { Player.new "Hero" with experience := 25, gold := 63 },
     dungeon_level := 2, running := true },
   ⟨"Hero", steadyRng, [1, 1, 1, 4], [], 4, Or.inl (by decide)⟩,
   rfl,
   (gold_never_decreases32.2 2 _ (by decide)
     ⟨"Hero", steadyRng, [1, 1, 1, 4], [], 4, Or.inl (by decide)⟩).1⟩

/-! ## A run that overflows the gold -/

open BattleSystem in
/-- The iteration of choice 1 on a player turn, on `int`. -/
theorem battleLoop32_attack (rng : Nat → Nat) (p : Player) (m : Monster) (pos : Nat)
    (cin : List Int) (hal : (p.isAlive && m.isAlive) = true) :
    battleLoop32 rng p m pos (1 :: cin) =
      if (m.takeDamage32 (p.calculateDamage32 (rng pos))).isAlive = true then
        battleLoop32 rng
          (monsterTurn32 rng p (m.takeDamage32 (p.calculateDamage32 (rng pos))) (pos + 1))
          (m.takeDamage32 (p.calculateDamage32 (rng pos))) (pos + 2) cin
      else .done p (m.takeDamage32 (p.calculateDamage32 (rng pos))) cin (pos + 1) := by
  rw [battleLoop32.eq_def]
  simp only [hal, if_true]
  by_cases h : (m.takeDamage32 (p.calculateDamage32 (rng pos))).isAlive = true
  · simp [h]
  · simp [h]

open BattleSystem in
/-- The iteration of a choice other than 1, 2 and 3 on a player turn, on `int`. -/
theorem battleLoop32_other (rng : Nat → Nat) (p : Player) (m : Monster) (pos : Nat)
    (c : Int) (cin : List Int) (hal : (p.isAlive && m.isAlive) = true)
    (h1 : c ≠ 1) (h2 : c ≠ 2) (h3 : c ≠ 3) :
    battleLoop32 rng p m pos (c :: cin) = battleLoop32 rng p m pos cin := by
  rw [battleLoop32.eq_def]
  simp only [hal, if_true, h1, h2, h3, if_false]

/-- A hit that overflows nowhere, as an update of the health. -/
theorem takeDamage32_eq (c : Character) (d : Int)
    (h1 : IsInt (d - c.defense)) (h2 : IsInt (c.health - max 1 (d - c.defense))) :
    c.takeDamage32 d = { c with health := max 0 (c.health - max 1 (d - c.defense)) } := by
  simp only [Character.takeDamage32]
  rw [wrap_of_isInt _ h1, wrap_of_isInt _ h2]
  split_ifs with h
  · simp only at h
    congr 1
    omega
  · simp only at h
    congr 1
    omega

/-- With the raw output 252 the player's roll is `attack + 5`. -/
theorem playerRoll_steady (p : Player) (pos : Nat)
    (h1 : 6 ≤ p.attack) (h2 : p.attack ≤ 1000000) :
    p.calculateDamage32 (steadyRng pos) = p.attack + 5 := by
  have e1 : wrap (p.attack - 5) = p.attack - 5 := by unfold wrap; omega
  have e2 : wrap (p.attack + 5) = p.attack + 5 := by unfold wrap; omega
  have e3 : p.attack + 5 - (p.attack - 5) + 1 = 11 := by ring
  simp only [Player.calculateDamage32, uniformInt, steadyRng, e1, e2, e3]
  norm_num
  omega

/-- With the raw output 252 the monster's roll is `attack - 3`. -/
theorem monsterRoll_steady (m : Monster) (pos : Nat)
    (h1 : 4 ≤ m.attack) (h2 : m.attack ≤ 1000000) :
    m.calculateDamage32 (steadyRng pos) = m.attack - 3 := by
  have e1 : wrap (m.attack - 3) = m.attack - 3 := by unfold wrap; omega
  have e2 : wrap (m.attack + 3) = m.attack + 3 := by unfold wrap; omega
  have e3 : m.attack + 3 - (m.attack - 3) + 1 = 7 := by ring
  simp only [Monster.calculateDamage32, uniformInt, steadyRng, e1, e2, e3]
  norm_num
  omega

/-- The health of a monster written over with the health it has. -/
theorem monster_health_self (m : Monster) (v : Int) (h : m.health = v) :
    ({ m with health := v } : Monster) = m := by
  subst h
  rfl

open BattleSystem in
/-- A battle of attacks on the input `4 1 4 1 ...` with the steady stream: when
`R` hits of `x = attack + 5 - defense` exhaust the monster's health and `R` hits
of `y` leave the player alive, the loop is left after at most `R` pairs with the
monster at health 0 and the player alive, nothing but the two healths changed. -/
theorem battleLoop32_restAndAttack (R : Nat) :
    ∀ (p : Player) (m : Monster) (pos k : Nat) (x y : Int), R ≤ k →
      6 ≤ p.attack → p.attack ≤ 1000000 → 4 ≤ m.attack → m.attack ≤ 1000000 →
      0 ≤ p.defense → p.defense ≤ 1000000 → 0 ≤ m.defense → m.defense ≤ 1000000 →
      x = p.attack + 5 - m.defense → 1 ≤ x → y = max 1 (m.attack - 3 - p.defense) →
      0 ≤ m.health → m.health ≤ (R : Int) * x → m.health ≤ 100000000 →
      (R : Int) * y < p.health → p.health ≤ 100000000 →
      ∃ (j : Nat) (h : Int) (pos1 : Nat), j ≤ R ∧ 0 < h ∧ h ≤ p.health ∧
        battleLoop32 steadyRng p m pos (restAndAttack k) =
          .done { p with health := h } { m with health := 0 } (restAndAttack (k - j)) pos1 := by
  induction R with
  | zero =>
    intro p m pos k x y _ _ _ _ _ _ _ _ _ _ _ _ hm0 hmR _ hpR _
    simp only [Nat.cast_zero, zero_mul] at hmR hpR
    have hmz : m.health = 0 := by omega
    have hdead : (p.isAlive && m.isAlive) = false := by
      simp only [Bool.and_eq_false_iff, Monster.isAlive, Character.isAlive,
        decide_eq_false_iff_not]
      right
      omega
    refine ⟨0, p.health, pos, le_refl 0, hpR, le_refl _, ?_⟩
    rw [battleLoop32.eq_def]
    simp only [hdead, Bool.false_eq_true, if_false, Nat.sub_zero]
    rw [monster_health_self m 0 hmz]
  | succ R ih =>
    intro p m pos k x y hk hA1 hA2 ha1 ha2 hD1 hD2 hd1 hd2 hx hx1 hy hm0 hmR hmB hpR hpB
    have hmul1 : ((R + 1 : Nat) : Int) * x = (R : Int) * x + x := by push_cast; ring
    have hmul2 : ((R + 1 : Nat) : Int) * y = (R : Int) * y + y := by push_cast; ring
    rw [hmul1] at hmR
    rw [hmul2] at hpR
    have hy1 : 1 ≤ y := by omega
    have hRy : 0 ≤ (R : Int) * y := by positivity
    by_cases hmz : m.health = 0
    · have hdead : (p.isAlive && m.isAlive) = false := by
        simp only [Bool.and_eq_false_iff, Monster.isAlive, Character.isAlive,
          decide_eq_false_iff_not]
        right
        omega
      refine ⟨0, p.health, pos, Nat.zero_le _, by omega, le_refl _, ?_⟩
      rw [battleLoop32.eq_def]
      simp only [hdead, Bool.false_eq_true, if_false, Nat.sub_zero]
      rw [monster_health_self m 0 hmz]
    · have hal : (p.isAlive && m.isAlive) = true := by
        simp only [Bool.and_eq_true, Player.isAlive, Monster.isAlive, Character.isAlive,
          decide_eq_true_eq]
        constructor <;> omega
      obtain ⟨k1, rfl⟩ : ∃ k1, k = k1 + 1 := ⟨k - 1, by omega⟩
      have hroll := playerRoll_steady p pos hA1 hA2
      have hhit : m.takeDamage32 (p.attack + 5) =
          { m with health := max 0 (m.health - x) } := by
        have := takeDamage32_eq m.toCharacter (p.attack + 5)
          (by unfold IsInt intMin intMax; omega)
          (by unfold IsInt intMin intMax; omega)
        simp only [Monster.takeDamage32, this]
        congr 2
        omega
      simp only [restAndAttack]
      rw [battleLoop32_other steadyRng p m pos 4 _ hal (by decide) (by decide) (by decide),
        battleLoop32_attack steadyRng p m pos _ hal, hroll, hhit]
      by_cases hkill : m.health ≤ x
      · have hz : max 0 (m.health - x) = 0 := by omega
        rw [hz]
        have hnot : ¬ (({ m with health := 0 } : Monster).isAlive = true) := by
          simp [Monster.isAlive, Character.isAlive]
        rw [if_neg hnot]
        exact ⟨1, p.health, pos + 1, by omega, by omega, le_refl _, by simp⟩
      · have hz : max 0 (m.health - x) = m.health - x := by omega
        rw [hz]
        have hlive : ({ m with health := m.health - x } : Monster).isAlive = true := by
          simp only [Monster.isAlive, Character.isAlive, decide_eq_true_eq]
          omega
        rw [if_pos hlive]
        have hmroll := monsterRoll_steady ({ m with health := m.health - x } : Monster)
          (pos + 1) ha1 ha2
        have hturn : monsterTurn32 steadyRng p ({ m with health := m.health - x } : Monster)
            (pos + 1) = { p with health := p.health - y } := by
          have := takeDamage32_eq p.toCharacter (m.attack - 3)
            (by unfold IsInt intMin intMax; omega)
            (by unfold IsInt intMin intMax; omega)
          simp only [monsterTurn32, hmroll, Player.takeDamage32, this]
          congr 2
          omega
        rw [hturn]
        obtain ⟨j, h, pos1, hj, hh0, hh1, heq⟩ :=
          ih ({ p with health := p.health - y } : Player)
            ({ m with health := m.health - x } : Monster) (pos + 2) k1 x y (by omega)
            hA1 hA2 ha1 ha2 hD1 hD2 hd1 hd2 hx hx1 hy
            (show (0 : Int) ≤ m.health - x by omega)
            (show m.health - x ≤ (R : Int) * x by omega)
            (show m.health - x ≤ 100000000 by omega)
            (show (R : Int) * y < p.health - y by omega)
            (show p.health - y ≤ 100000000 by omega)
        refine ⟨j + 1, h, pos1, by omega, hh0, ?_, ?_⟩
        · have : h ≤ p.health - y := hh1
          omega
        · rw [heq]
          have hsub : k1 + 1 - (j + 1) = k1 - j := by omega
          rw [hsub]

/-- One more iteration of the loop of `run` when the condition holds and
`handleInput` returns. -/
theorem iterate32_step (rng : Nat → Nat) (n : Nat) (g : Game) (pos : Nat) (cin : List Int)
    (g1 : Game) (cin1 : List Int) (pos1 : Nat) (hloop : g.loopCondition = true)
    (h : Game.handleInput32 rng g pos cin = .returned g1 cin1 pos1) :
    Game.iterate32 rng (n + 1) g pos cin = Game.iterate32 rng n g1 pos1 cin1 := by
  simp only [Game.iterate32, hloop, if_true, h]

/-- Iterations add up: `a + b` of them are `b` after the first `a`. -/
theorem iterate32_add (rng : Nat → Nat) (a b : Nat) :
    ∀ (g : Game) (pos : Nat) (cin : List Int) (g1 : Game) (cin1 : List Int) (pos1 : Nat),
      Game.iterate32 rng a g pos cin = .returned g1 cin1 pos1 →
      Game.iterate32 rng (a + b) g pos cin = Game.iterate32 rng b g1 pos1 cin1 := by
  induction a with
  | zero =>
    intro g pos cin g1 cin1 pos1 h
    simp only [Game.iterate32] at h
    injection h with e1 e2 e3
    subst e1 e2 e3
    simp
  | succ a ih =>
    intro g pos cin g1 cin1 pos1 h
    have hab : a + 1 + b = (a + b) + 1 := by omega
    rw [hab]
    simp only [Game.iterate32] at h ⊢
    by_cases hloop : g.loopCondition = true
    · simp only [hloop, if_true] at h ⊢
      cases hh : Game.handleInput32 rng g pos cin with
      | returned g2 cin2 pos2 =>
        simp only [hh] at h ⊢
        exact ih g2 pos2 cin2 g1 cin1 pos1 h
      | gameOver g2 cin2 pos2 =>
        simp only [hh] at h
        exact absurd h (by simp)
      | noReturn =>
        simp only [hh] at h
        exact absurd h (by simp)
    · simp only [hloop, Bool.false_eq_true, if_false] at h ⊢
      injection h with e1 e2 e3
      subst e1 e2 e3
      cases b with
      | zero => simp [Game.iterate32]
      | succ b => simp [Game.iterate32, hloop]

/-- A rest with at least 20 gold brings a health of at most maxHealth to maxHealth. -/
theorem rest32_full (g : Game) (hgold : 20 ≤ g.player.gold)
    (h1 : 0 < g.player.health) (h2 : g.player.health ≤ g.player.maxHealth)
    (h3 : g.player.maxHealth ≤ 100000000) :
    g.rest32 = { g with player := { g.player with health := g.player.maxHealth } } := by
  have e1 : wrap (g.player.maxHealth - g.player.health)
      = g.player.maxHealth - g.player.health := by
    unfold wrap
    omega
  unfold Game.rest32
  rw [if_pos (by omega : g.player.gold ≥ 20)]
  simp only [e1]
  by_cases hfull : g.player.maxHealth - g.player.health > 0
  · rw [if_pos hfull]
    have e2 : wrap (g.player.health + (g.player.maxHealth - g.player.health))
        = g.player.maxHealth := by
      unfold wrap
      omega
    simp only [Player.heal32, Character.heal32, e2, min_self]
  · rw [if_neg hfull]
    have e3 : g.player.health = g.player.maxHealth := by omega
    cases g with
    | mk player dungeon_level running =>
      cases player with
      | mk c experience level inventory gold =>
        cases c with
        | mk name health maxHealth attack defense =>
          simp only at e3
          subst e3
          rfl

/-- The slime of a level between 1 and 40000. -/
theorem createRandomMonster32_slime (L : Int) (h1 : 1 ≤ L) (h2 : L ≤ 40000) (pos : Nat) :
    MonsterFactory.createRandomMonster32 L (uniformInt 1 4 (steadyRng pos)) =
      Monster.new "슬라임" (30 + 10 * L) (8 + 2 * L) (1 + L) (20 + 5 * L) (10 + 3 * L) := by
  have ht : uniformInt 1 4 (steadyRng pos) = 1 := by
    simp only [uniformInt, steadyRng]
    norm_num
  have hmax : max 1 L = L := max_eq_right h1
  have e1 : wrap (30 + wrap (L * 10)) = 30 + 10 * L := by unfold wrap; omega
  have e2 : wrap (8 + wrap (L * 2)) = 8 + 2 * L := by unfold wrap; omega
  have e3 : wrap (1 + L) = 1 + L := by unfold wrap; omega
  have e4 : wrap (20 + wrap (L * 5)) = 20 + 5 * L := by unfold wrap; omega
  have e5 : wrap (10 + wrap (L * 3)) = 10 + 3 * L := by unfold wrap; omega
  simp only [MonsterFactory.createRandomMonster32, ht, hmax, if_true, e1, e2, e3, e4, e5]

open BattleSystem in
/-- One win of the long run: at the main menu, with the stats of level `l`, at
least 20 gold and `16 dungeonLevel <= 84 + 30 l`, the input `4 1 4 1 ...` rests,
starts a fight with the slime of the dungeon level and wins it within six
pairs: two iterations of the loop of `run` later the dungeon level is one
more and the player, at some positive health, has been given the slime's
experience and gold. -/
theorem win_step (g : Game) (pos k : Nat) (l : Int)
    (hrun : g.running = true) (hm1 : 1 ≤ g.dungeon_level) (hm2 : g.dungeon_level ≤ 40000)
    (hlev : g.player.AtLevel l) (hl1 : 1 ≤ l) (hl2 : l ≤ 40000)
    (hkey : 16 * g.dungeon_level ≤ 84 + 30 * l)
    (hh1 : 0 < g.player.health) (hh2 : g.player.health ≤ g.player.maxHealth)
    (hgold : 20 ≤ g.player.gold) (hk : 6 ≤ k) :
    ∃ (j : Nat) (h : Int) (pos1 : Nat), j ≤ 6 ∧ 0 < h ∧ h ≤ g.player.maxHealth ∧
      Game.iterate32 steadyRng 2 g pos (restAndAttack (k + 1)) =
        .returned
          { g with
            player := (({ g.player with health := h } : Player).gainExperience32
              (20 + 5 * g.dungeon_level)).gainGold32 (10 + 3 * g.dungeon_level)
            dungeon_level := g.dungeon_level + 1 }
          (restAndAttack (k - j)) pos1 := by
  obtain ⟨hl, hatt, hdef, hmax⟩ := hlev
  have hloop : g.loopCondition = true := by
    simp only [Game.loopCondition, hrun, Bool.true_and, Player.isAlive, Character.isAlive,
      decide_eq_true_eq]
    omega
  have hrest := rest32_full g hgold hh1 hh2 (by omega)
  have hin1 : Game.handleInput32 steadyRng g pos (restAndAttack (k + 1)) =
      .returned { g with player := { g.player with health := g.player.maxHealth } }
        (1 :: restAndAttack k) pos := by
    simp [restAndAttack, Game.handleInput32, hrest]
  have hloop1 : ({ g with player := { g.player with health := g.player.maxHealth } } :
      Game).loopCondition = true := by
    simp only [Game.loopCondition, hrun, Bool.true_and, Player.isAlive, Character.isAlive,
      decide_eq_true_eq]
    omega
  obtain ⟨j, h, pos1, hj, hh0, hhle, heq⟩ :=
    battleLoop32_restAndAttack 6
      ({ g.player with health := g.player.maxHealth } : Player)
      (Monster.new "슬라임" (30 + 10 * g.dungeon_level) (8 + 2 * g.dungeon_level)
        (1 + g.dungeon_level) (20 + 5 * g.dungeon_level) (10 + 3 * g.dungeon_level))
      (pos + 1) k (19 + 5 * l - g.dungeon_level)
      (max 1 (8 + 2 * g.dungeon_level - 3 - (3 + 2 * l))) hk
      (by show 6 ≤ g.player.attack; omega) (by show g.player.attack ≤ 1000000; omega)
      (by show 4 ≤ 8 + 2 * g.dungeon_level; omega)
      (by show 8 + 2 * g.dungeon_level ≤ 1000000; omega)
      (by show 0 ≤ g.player.defense; omega) (by show g.player.defense ≤ 1000000; omega)
      (by show 0 ≤ 1 + g.dungeon_level; omega) (by show 1 + g.dungeon_level ≤ 1000000; omega)
      (by show _ = g.player.attack + 5 - (1 + g.dungeon_level); omega)
      (by omega)
      (by show _ = max 1 (8 + 2 * g.dungeon_level - 3 - g.player.defense); rw [hdef])
      (by show 0 ≤ 30 + 10 * g.dungeon_level; omega)
      (by show 30 + 10 * g.dungeon_level ≤ ((6 : Nat) : Int) * _; push_cast; omega)
      (by show 30 + 10 * g.dungeon_level ≤ 100000000; omega)
      (by show ((6 : Nat) : Int) * _ < g.player.maxHealth; push_cast; omega)
      (by show g.player.maxHealth ≤ 100000000; omega)
  have hwl : wrap (g.dungeon_level + 1) = g.dungeon_level + 1 := by unfold wrap; omega
  have hin2 : Game.handleInput32 steadyRng
      { g with player := { g.player with health := g.player.maxHealth } } pos
      (1 :: restAndAttack k) =
      .returned
        { g with
          player := (({ g.player with health := h } : Player).gainExperience32
            (20 + 5 * g.dungeon_level)).gainGold32 (10 + 3 * g.dungeon_level)
          dungeon_level := g.dungeon_level + 1 }
        (restAndAttack (k - j)) pos1 := by
    have halive : ({ g.player with health := h } : Player).isAlive = true := by
      simp only [Player.isAlive, Character.isAlive, decide_eq_true_eq]
      exact hh0
    simp only [Game.handleInput32, if_true, Game.fight32,
      createRandomMonster32_slime g.dungeon_level hm1 hm2 pos, battle32, heq, battleResult32,
      halive, hwl]
    rfl
  refine ⟨j, h, pos1, hj, hh0, hhle, ?_⟩
  rw [show (2 : Nat) = 1 + 1 from rfl, iterate32_step steadyRng 1 g pos _ _ _ _ hloop hin1,
    show (1 : Nat) = 0 + 1 from rfl, iterate32_step steadyRng 0 _ pos _ _ _ _ hloop1 hin2]
  rfl

/-- The closed form of the triangular numbers. -/
theorem tri_closed (n : Nat) : 2 * tri n = (n : Int) * ((n : Int) + 1) := by
  induction n with
  | zero => simp [tri]
  | succ n ih =>
    simp only [tri]
    push_cast
    linarith

/-- The triangular numbers grow. -/
theorem tri_mono (a b : Nat) (h : a ≤ b) : tri a ≤ tri b := by
  induction h with
  | refl => exact le_refl _
  | step _ ih =>
    simp only [tri]
    omega

/-- The triangular numbers outgrow `16 n - 104`; this is what makes every win
from level `n - 5` a level-up. -/
theorem tri_lower (n : Nat) : 16 * (n : Int) - 104 ≤ tri (n + 1) := by
  induction n with
  | zero => simp [tri]
  | succ n ih =>
    have hstep : tri (n + 1 + 1) = tri (n + 1) + ((n : Int) + 1 + 1) := by
      simp only [tri]
      push_cast
      ring
    have hpos : 0 ≤ tri (n + 1) := by
      have := tri_mono 0 (n + 1) (Nat.zero_le _)
      simpa [tri] using this
    by_cases hn : n ≤ 13
    · interval_cases n <;> simp [tri]
    · push_cast at ih ⊢
      omega

/-- The four triangular numbers at which the long run changes. -/
theorem tri_values :
    tri 29304 = 429376860 ∧ tri 29305 = 429406165 ∧
    tri 37833 = 715686861 ∧ tri 37834 = 715724695 := by
  have h1 := tri_closed 29304
  have h2 := tri_closed 29305
  have h3 := tri_closed 37833
  have h4 := tri_closed 37834
  norm_num at h1 h2 h3 h4
  refine ⟨?_, ?_, ?_, ?_⟩ <;> omega

/-- The experience and the level-up of a player with the stats of level `l`,
when `experience + e` is `e1` on `int`: either `e1` is at least `100 l` and the
player gets the stats of level `l + 1` at full health, or `e1` is below `100 l`
and only the experience changes. -/
theorem gainExperience32_atLevel (p : Player) (l e : Int)
    (hlev : p.AtLevel l) (hl1 : 1 ≤ l) (hl2 : l ≤ 40000) :
    (p.gainExperience32 e).experience = wrap (p.experience + e) ∧
    (p.gainExperience32 e).gold = p.gold ∧
    ((wrap (p.experience + e) ≥ 100 * l ∧ (p.gainExperience32 e).AtLevel (l + 1) ∧
        (p.gainExperience32 e).health = (p.gainExperience32 e).maxHealth) ∨
      (wrap (p.experience + e) < 100 * l ∧ (p.gainExperience32 e).AtLevel l ∧
        (p.gainExperience32 e).health = p.health)) := by
  obtain ⟨hl, hatt, hdef, hmax⟩ := hlev
  have e0 : wrap (p.level * 100) = 100 * l := by
    rw [hl]
    unfold wrap
    omega
  by_cases h : wrap (p.experience + e) ≥ 100 * l
  · have hg : p.gainExperience32 e =
        Player.levelUp32 { p with experience := wrap (p.experience + e) } := by
      simp only [Player.gainExperience32, e0]
      rw [if_pos h]
    rw [hg]
    refine ⟨rfl, rfl, Or.inl ⟨h, ⟨?_, ?_, ?_, ?_⟩, rfl⟩⟩
    · show wrap (p.level + 1) = l + 1
      rw [hl]
      unfold wrap
      omega
    · show wrap (p.attack + 5) = 15 + 5 * (l + 1)
      rw [hatt]
      unfold wrap
      omega
    · show wrap (p.defense + 2) = 3 + 2 * (l + 1)
      rw [hdef]
      unfold wrap
      omega
    · show wrap (p.maxHealth + 20) = 80 + 20 * (l + 1)
      rw [hmax]
      unfold wrap
      omega
  · have hg : p.gainExperience32 e = { p with experience := wrap (p.experience + e) } := by
      simp only [Player.gainExperience32, e0]
      rw [if_neg h]
    rw [hg]
    exact ⟨rfl, rfl, Or.inr ⟨by omega, ⟨hl, hatt, hdef, hmax⟩, rfl⟩⟩

/-- One win of the long run, from the game after `n` wins to the game after
`n + 1`: the experience and the gold are the reduced sums with the slime's
rewards, and the level is one more exactly when the new experience is at
least `100 l`. -/
theorem win_step_afterWins (n : Nat) (l e gold : Int) (g : Game) (pos k : Nat)
    (hg : g.AfterWins n l e gold) (hn : n ≤ 37833) (hl1 : 1 ≤ l) (hl2 : l ≤ 39000)
    (hkey : 16 * ((n : Int) + 1) ≤ 84 + 30 * l) (hgold : 20 ≤ gold) (hk : 6 ≤ k) :
    ∃ (j : Nat) (pos1 : Nat) (g1 : Game) (l1 : Int), j ≤ 6 ∧
      Game.iterate32 steadyRng 2 g pos (restAndAttack (k + 1)) =
        .returned g1 (restAndAttack (k - j)) pos1 ∧
      g1.AfterWins (n + 1) l1 (wrap (e + (20 + 5 * ((n : Int) + 1))))
        (wrap (gold + (10 + 3 * ((n : Int) + 1)))) ∧
      ((wrap (e + (20 + 5 * ((n : Int) + 1))) ≥ 100 * l ∧ l1 = l + 1) ∨
        (wrap (e + (20 + 5 * ((n : Int) + 1))) < 100 * l ∧ l1 = l)) := by
  obtain ⟨hrun, hdl, hgo, hex, hlev, hh1, hh2⟩ := hg
  have hn1 : (n : Int) ≤ 37833 := by exact_mod_cast hn
  obtain ⟨j, h, pos1, hj, hh0, hhle, heq⟩ :=
    win_step g pos k l hrun (by omega) (by omega) hlev hl1 (by omega)
      (by rw [hdl]; exact hkey) hh1 hh2 (by omega) hk
  have hlevh : ({ g.player with health := h } : Player).AtLevel l := hlev
  obtain ⟨hx1, hx2, hx3⟩ := gainExperience32_atLevel ({ g.player with health := h } : Player) l
    (20 + 5 * g.dungeon_level) hlevh hl1 (by omega)
  have hexp : ({ g.player with health := h } : Player).experience
      + (20 + 5 * g.dungeon_level) = e + (20 + 5 * ((n : Int) + 1)) := by
    show g.player.experience + _ = _
    rw [hex, hdl]
  rw [hexp] at hx1 hx3
  have hmaxh : g.player.maxHealth = 80 + 20 * l := hlev.2.2.2
  rcases hx3 with ⟨hge, hlev1, hfull⟩ | ⟨hlt, hlev1, hsame⟩
  · refine ⟨j, pos1, _, l + 1, hj, heq, ⟨hrun, ?_, ?_, hx1, hlev1, ?_, ?_⟩, Or.inl ⟨hge, rfl⟩⟩
    · show g.dungeon_level + 1 = ((n + 1 : Nat) : Int) + 1
      rw [hdl]
      push_cast
      ring
    · show wrap ((({ g.player with health := h } : Player).gainExperience32
          (20 + 5 * g.dungeon_level)).gold + (10 + 3 * g.dungeon_level)) = _
      rw [hx2, hdl]
      show wrap (g.player.gold + _) = _
      rw [hgo]
    · show 0 < (({ g.player with health := h } : Player).gainExperience32
          (20 + 5 * g.dungeon_level)).health
      rw [hfull, hlev1.2.2.2]
      omega
    · show (({ g.player with health := h } : Player).gainExperience32
          (20 + 5 * g.dungeon_level)).health ≤ (({ g.player with health := h } :
          Player).gainExperience32 (20 + 5 * g.dungeon_level)).maxHealth
      rw [hfull]
  · refine ⟨j, pos1, _, l, hj, heq, ⟨hrun, ?_, ?_, hx1, hlev1, ?_, ?_⟩, Or.inr ⟨hlt, rfl⟩⟩
    · show g.dungeon_level + 1 = ((n + 1 : Nat) : Int) + 1
      rw [hdl]
      push_cast
      ring
    · show wrap ((({ g.player with health := h } : Player).gainExperience32
          (20 + 5 * g.dungeon_level)).gold + (10 + 3 * g.dungeon_level)) = _
      rw [hx2, hdl]
      show wrap (g.player.gold + _) = _
      rw [hgo]
    · show 0 < (({ g.player with health := h } : Player).gainExperience32
          (20 + 5 * g.dungeon_level)).health
      rw [hsame]
      exact hh0
    · show (({ g.player with health := h } : Player).gainExperience32
          (20 + 5 * g.dungeon_level)).health ≤ (({ g.player with health := h } :
          Player).gainExperience32 (20 + 5 * g.dungeon_level)).maxHealth
      rw [hsame, hlev1.2.2.2]
      show h ≤ _
      omega

/-- The long run, `d` wins at a time: from the game after `n` wins to the game
after `n + d` wins, through 37833 wins, in `2 d` iterations of the loop of `run`
and at most `7 d` pairs of input. -/
theorem long_run (d : Nat) :
    ∀ (n : Nat) (l e : Int) (g : Game) (pos k : Nat), n + d ≤ 37833 →
      g.AfterWins n l e (goldAfter n) → LongRunPhase n l e → 7 * d ≤ k →
      ∃ (g1 : Game) (pos1 k1 : Nat) (l1 e1 : Int),
        Game.iterate32 steadyRng (2 * d) g pos (restAndAttack k) =
          .returned g1 (restAndAttack k1) pos1 ∧
        g1.AfterWins (n + d) l1 e1 (goldAfter (n + d)) ∧ LongRunPhase (n + d) l1 e1 ∧
        k ≤ k1 + 7 * d := by
  induction d with
  | zero =>
    intro n l e g pos k _ hg hph _
    exact ⟨g, pos, k, l, e, rfl, hg, hph, by omega⟩
  | succ d ih =>
    intro n l e g pos k hnd hg hph hk
    obtain ⟨k0, rfl⟩ : ∃ k0, k = k0 + 1 := ⟨k - 1, by omega⟩
    obtain ⟨v1, v2, v3, v4⟩ := tri_values
    have htri : tri (n + 1) = tri n + ((n : Int) + 1) := rfl
    have hlow := tri_lower n
    have hpos : 0 ≤ tri n := by
      have := tri_mono 0 n (Nat.zero_le _)
      simpa [tri] using this
    have hup : tri (n + 1) ≤ tri 37833 := tri_mono _ _ (by omega)
    have hnI : (n : Int) ≤ 37832 := by
      have : n ≤ 37832 := by omega
      exact_mod_cast this
    have hl : 1 ≤ l ∧ l ≤ 39000 ∧ 16 * ((n : Int) + 1) ≤ 84 + 30 * l := by
      rcases hph with ⟨h1, _, h3, h4, h5⟩ | ⟨h1, _, h3, h4⟩
      · have : (n : Int) ≤ 29304 := by exact_mod_cast h1
        omega
      · omega
    obtain ⟨j, pos1, g1, l1, hj, hit, hg1, hlv⟩ :=
      win_step_afterWins n l e (goldAfter n) g pos k0 hg (by omega) hl.1 hl.2.1 hl.2.2
        (by unfold goldAfter; omega) (by omega)
    have hgold1 : wrap (goldAfter n + (10 + 3 * ((n : Int) + 1))) = goldAfter (n + 1) := by
      unfold goldAfter wrap
      push_cast
      omega
    rw [hgold1] at hg1
    have hph1 : LongRunPhase (n + 1) l1 (wrap (e + (20 + 5 * ((n : Int) + 1)))) := by
      rcases hph with ⟨h1, h2, h3, h4, h5⟩ | ⟨h1, h2, h3, h4⟩
      · have h1I : (n : Int) ≤ 29304 := by exact_mod_cast h1
        by_cases hlast : n = 29304
        · have hnI2 : (n : Int) = 29304 := by exact_mod_cast hlast
          have ha1 : tri (n + 1) ≤ tri 29305 := tri_mono _ _ (by omega)
          have ha2 : tri 29305 ≤ tri (n + 1) := tri_mono _ _ (by omega)
          have hw : wrap (e + (20 + 5 * ((n : Int) + 1)))
              = expAfter (n + 1) - 4294967296 := by
            rw [h2]
            unfold expAfter wrap
            push_cast
            omega
          rw [hw]
          rw [hw] at hlv
          have hneg : expAfter (n + 1) - 4294967296 < 100 * l := by
            unfold expAfter
            push_cast
            omega
          rcases hlv with ⟨hge, _⟩ | ⟨_, rfl⟩
          · omega
          · right
            exact ⟨by omega, rfl, by omega, by omega⟩
        · have hlt : n + 1 ≤ 29304 := by omega
          have hupB : tri (n + 1) ≤ tri 29304 := tri_mono _ _ hlt
          have hw : wrap (e + (20 + 5 * ((n : Int) + 1))) = expAfter (n + 1) := by
            rw [h2]
            unfold expAfter wrap
            push_cast
            omega
          rw [hw]
          rw [hw] at hlv
          left
          rcases hlv with ⟨_, rfl⟩ | ⟨hlt2, rfl⟩
          · refine ⟨hlt, rfl, by omega, ?_, ?_⟩ <;> push_cast <;> omega
          · refine ⟨hlt, rfl, h3, ?_, ?_⟩
            · unfold expAfter at hlt2
              push_cast at hlt2 ⊢
              omega
            · push_cast
              omega
      · have h1I : (29305 : Int) ≤ (n : Int) := by exact_mod_cast h1
        have hlo : tri 29305 ≤ tri n := tri_mono _ _ h1
        have hup2 : tri (n + 1) ≤ tri 37834 := tri_mono _ _ (by omega)
        have hw : wrap (e + (20 + 5 * ((n : Int) + 1))) = expAfter (n + 1) - 4294967296 := by
          rw [h2]
          unfold expAfter wrap
          push_cast
          omega
        rw [hw]
        rw [hw] at hlv
        have hneg : expAfter (n + 1) - 4294967296 < 100 * l := by
          unfold expAfter
          push_cast
          omega
        rcases hlv with ⟨hge, _⟩ | ⟨_, rfl⟩
        · omega
        · right
          exact ⟨by omega, rfl, h3, h4⟩
    obtain ⟨g2, pos2, k2, l2, e2, hit2, hg2, hph2, hk2⟩ :=
      ih (n + 1) l1 _ g1 pos1 (k0 - j) (by omega) hg1 hph1 (by omega)
    have hnd1 : n + 1 + d = n + (d + 1) := by omega
    rw [hnd1] at hg2 hph2
    refine ⟨g2, pos2, k2, l2, e2, ?_, hg2, hph2, by omega⟩
    have h2d : 2 * (d + 1) = 2 + 2 * d := by ring
    rw [h2d, iterate32_add steadyRng 2 (2 * d) g pos _ g1 _ pos1 hit]
    exact hit2

/-- Counterexample for C18: the run of the fresh player on the input of 264838
pairs `4 1` (rest, fight, and in the battle an ignored 4 before every attack),
every monster draw giving the slime, every player roll `attack + 5` and every
monster roll `attack - 3`.  After 75666 iterations of the loop of `run`, 37833
wins, the game is running with 2147438963 gold; the next win adds the slime's
113512 gold, the `int` overflows, and after 75668 iterations the game is still
running, at dungeon level 37835, with -2147414821 gold: the gold has gone down,
it is below 50, and `rest` finds it below 20. -/
theorem gold_overflows_in_a_run :
    ∃ (g0 g : Game) (cin0 cin1 : List Int) (pos0 pos1 : Nat),
      Game.iterate32 steadyRng 75666 (Game.start "Hero") 0 (restAndAttack 264838) =
        .returned g0 cin0 pos0 ∧
      g0.loopCondition = true ∧ g0.player.gold = 2147438963 ∧
      Game.iterate32 steadyRng 75668 (Game.start "Hero") 0 (restAndAttack 264838) =
        .returned g cin1 pos1 ∧
      Game.ReachedAfter32 75668 g ∧
      g.loopCondition = true ∧ g.dungeon_level = 37835 ∧
      g.player.gold = -2147414821 ∧ g.player.gold < g0.player.gold ∧
      g.player.gold < 20 ∧ g.rest32 = g := by
  obtain ⟨v1, v2, v3, v4⟩ := tri_values
  have hstart : (Game.start "Hero").AfterWins 0 1 0 (goldAfter 0) :=
    ⟨rfl, rfl, rfl, rfl, ⟨rfl, rfl, rfl, rfl⟩, by decide, by decide⟩
  have hphase : LongRunPhase 0 1 0 := Or.inl ⟨by omega, rfl, by omega, by omega, by omega⟩
  obtain ⟨g0, pos0, k1, l1, e1, hit0, hg0, hph0, hk1⟩ :=
    long_run 37833 0 1 0 (Game.start "Hero") 0 264838 (by omega) hstart hphase (by omega)
  simp only [Nat.zero_add] at hg0 hph0
  have hit0' : Game.iterate32 steadyRng 75666 (Game.start "Hero") 0 (restAndAttack 264838) =
      .returned g0 (restAndAttack k1) pos0 := hit0
  obtain ⟨k2, rfl⟩ : ∃ k2, k1 = k2 + 1 := ⟨k1 - 1, by omega⟩
  have hl : 29299 ≤ l1 ∧ l1 ≤ 29305 := by
    rcases hph0 with ⟨h1, _⟩ | ⟨_, _, h3, h4⟩
    · omega
    · exact ⟨h3, h4⟩
  have hgold0 : goldAfter 37833 = 2147438963 := by
    unfold goldAfter
    rw [v3]
    norm_num
  rw [hgold0] at hg0
  obtain ⟨j, pos1, g, l2, hj, hit1, hg, _⟩ :=
    win_step_afterWins 37833 l1 e1 2147438963 g0 pos0 k2 hg0 (le_refl _) (by omega) (by omega)
      (by push_cast; omega) (by omega) (by omega)
  have hgoldw : wrap (2147438963 + (10 + 3 * (((37833 : Nat) : Int) + 1))) = -2147414821 := by
    unfold wrap
    norm_num
  rw [hgoldw] at hg
  obtain ⟨hrun0, _, hgo0, _, _, hh0, _⟩ := hg0
  obtain ⟨hrun, hdl, hgo, _, _, hh, _⟩ := hg
  have hit : Game.iterate32 steadyRng 75668 (Game.start "Hero") 0 (restAndAttack 264838) =
      .returned g (restAndAttack (k2 - j)) pos1 := by
    rw [show (75668 : Nat) = 75666 + 2 from rfl,
      iterate32_add steadyRng 75666 2 _ _ _ g0 _ pos0 hit0']
    exact hit1
  refine ⟨g0, g, _, _, pos0, pos1, hit0', ?_, hgo0, hit,
    ⟨"Hero", steadyRng, _, _, pos1, Or.inl hit⟩, ?_, ?_, hgo, ?_, ?_, ?_⟩
  · simp only [Game.loopCondition, hrun0, Bool.true_and, Player.isAlive, Character.isAlive,
      decide_eq_true_eq]
    exact hh0
  · simp only [Game.loopCondition, hrun, Bool.true_and, Player.isAlive, Character.isAlive,
      decide_eq_true_eq]
    exact hh
  · rw [hdl]
    norm_num
  · rw [hgo, hgo0]
    norm_num
  · rw [hgo]
    norm_num
  · unfold Game.rest32
    rw [if_neg (by rw [hgo]; norm_num)]

end SimpleRpg

namespace CustomException

/-! ## BankAccount -/

/-- C14: `deposit(a)` throws `InvalidAmountException` exactly when `a <= 0`;
`withdraw(a)` throws `InvalidAmountException` exactly when `a <= 0` and
`InsufficientFundsException` exactly when `a > 0` and `a > balance`; a call
that throws leaves the balance as it was, a returning deposit gives
`balance + a` and a returning withdraw `balance - a`. -/
theorem bankAccount_spec (acc : BankAccount) (a : ℚ) :
    ((acc.deposit a).1 = .error .invalidAmount ↔ a ≤ 0) ∧
    ((∃ e, (acc.deposit a).1 = .error e) ↔ a ≤ 0) ∧
    ((acc.withdraw a).1 = .error .invalidAmount ↔ a ≤ 0) ∧
    ((∃ r b, (acc.withdraw a).1 = .error (.insufficientFunds r b)) ↔ (a > 0 ∧ a > acc.balance)) ∧
    (∀ e, (acc.deposit a).1 = .error e → (acc.deposit a).2.balance = acc.balance) ∧
    (∀ e, (acc.withdraw a).1 = .error e → (acc.withdraw a).2.balance = acc.balance) ∧
    ((acc.deposit a).1 = .ok () → (acc.deposit a).2.balance = acc.balance + a) ∧
    ((acc.withdraw a).1 = .ok () → (acc.withdraw a).2.balance = acc.balance - a) := by
  unfold BankAccount.deposit BankAccount.withdraw
  by_cases h0 : a ≤ 0
  · have hn : ¬ (a > 0) := not_lt.mpr h0
    simp [h0, hn]
  · have hp : a > 0 := not_le.mp h0
    by_cases hb : a > acc.balance
    · simp [h0, hp, hb]
    · simp [h0, hp, hb]

/-- Witness for C14: the run of `main`.  From 100000 the deposit of 50000 and
the withdrawal of 30000 return, the withdrawal of -1000 throws
`InvalidAmountException`, the withdrawal of 200000 throws
`InsufficientFundsException`, and the final balance is 120000. -/
theorem bankAccount_spec_witness :
    ((BankAccount.new 120000).withdraw (-1000)).1 = .error .invalidAmount ∧
    (∃ r b, ((BankAccount.new 120000).withdraw 200000).1 = .error (.insufficientFunds r b)) ∧
    mainFirstTry (BankAccount.new 100000) = BankAccount.new 120000 ∧
    main = 120000 :=
  ⟨(bankAccount_spec (BankAccount.new 120000) (-1000)).2.2.1.2 (by norm_num),
   (bankAccount_spec (BankAccount.new 120000) 200000).2.2.2.1.2
     ⟨by norm_num, by norm_num [BankAccount.new]⟩,
   by norm_num [mainFirstTry, BankAccount.withdraw, BankAccount.deposit, BankAccount.new],
   by norm_num [main, mainSecondTry, mainFirstTry, BankAccount.withdraw, BankAccount.deposit,
     BankAccount.new, BankAccount.getBalance]⟩

end CustomException
